import Mathlib

/-
Verification development for the raytracer repository.

Shallow embedding notes
=======================
The C++ code computes with IEEE doubles; the embedding uses exact rationals
(ℚ).  Every call the source makes to std::sqrt (and, inside quaternion SLERP,
to std::sin / std::cos / std::acos) is modelled by an explicit oracle function
passed as an argument; theorems that depend on the numeric meaning of such a
call carry a hypothesis stating the oracle is exact at the arguments actually
consulted, and witnesses discharge those hypotheses with the exact rational
square root ratSqrt defined below.

Fields of the C++ records that no claim mentions (string names, texture file
paths, the u/v texture coordinates and the tangent/bitangent frame of a
HitRecord, loader-only Euler/scale fields of shapes) are omitted; each
omission is noted at the corresponding definition.
-/

set_option linter.unusedVariables false

set_option maxRecDepth 2000

namespace RT

/-- Vec<3> of Vector.h: a 3-vector of doubles, embedded over ℚ.  Also used as
Point, Direction and Color, exactly as the C++ typedefs do. -/
structure Vec3 where
  x : ℚ
  y : ℚ
  z : ℚ
  deriving DecidableEq, Repr

instance : Add Vec3 := ⟨fun a b => ⟨a.x + b.x, a.y + b.y, a.z + b.z⟩⟩

instance : Sub Vec3 := ⟨fun a b => ⟨a.x - b.x, a.y - b.y, a.z - b.z⟩⟩

instance : Neg Vec3 := ⟨fun a => ⟨-a.x, -a.y, -a.z⟩⟩

/-- Component-wise product, Vec<3>::operator*(const Vec<3>&). -/
instance : Mul Vec3 := ⟨fun a b => ⟨a.x * b.x, a.y * b.y, a.z * b.z⟩⟩

/-- Scalar product on the right, Vec<3>::operator*(double). -/
instance : HMul Vec3 ℚ Vec3 := ⟨fun a c => ⟨a.x * c, a.y * c, a.z * c⟩⟩

/-- Scalar division, Vec<3>::operator/(double). -/
instance : HDiv Vec3 ℚ Vec3 := ⟨fun a c => ⟨a.x / c, a.y / c, a.z / c⟩⟩

instance : Zero Vec3 := ⟨⟨0, 0, 0⟩⟩

namespace Vec3

/-- Vec<3>::dot. -/
def dot (a b : Vec3) : ℚ := a.x * b.x + a.y * b.y + a.z * b.z

/-- Vec<3>::cross. -/
def cross (a b : Vec3) : Vec3 :=
  ⟨a.y * b.z - a.z * b.y, a.z * b.x - a.x * b.z, a.x * b.y - a.y * b.x⟩

/-- Vec<3>::length_squared. -/
def length_squared (a : Vec3) : ℚ := a.x * a.x + a.y * a.y + a.z * a.z

/-- Vec<3>::length = std::sqrt(length_squared), with the square root supplied
by the oracle sq. -/
def length (sq : ℚ → ℚ) (a : Vec3) : ℚ := sq a.length_squared

/-- Vec<3>::norm = *this / length. -/
def norm (sq : ℚ → ℚ) (a : Vec3) : Vec3 := a / a.length sq

/-- Indexed component access, Vec<3>::operator[] for indices 0,1,2. -/
def nth (a : Vec3) : ℕ → ℚ
  | 0 => a.x
  | 1 => a.y
  | _ => a.z

end Vec3

/-- Exact rational square root used by witnesses (integer square roots of the
reduced numerator and denominator); it agrees with the real square root
exactly on squares of nonnegative rationals (lemma ratSqrt_mul_self below). -/
def ratSqrt (q : ℚ) : ℚ := Rat.sqrt q

/-- Ray of Ray.h: origin, direction, time. -/
structure Ray where
  origin : Vec3
  direction : Vec3
  time : ℚ
  deriving DecidableEq, Repr

/-- Material of Material.h.  The string fields texture_file / normal_map /
bump_map are not embedded (texture lookups are oracles); has_texture keeps
the boolean guard the shader tests.  The unused PBR extras (subsurface,
sheen, clearcoat, clearcoat_roughness, bump_strength) and shininess /
specular_color / ambient_color are kept as data for faithfulness even where
no embedded function reads them. -/
structure Material where
  diffuse_color : Vec3
  specular_color : Vec3
  ambient_color : Vec3
  shininess : ℚ
  glossiness : ℚ
  reflectivity : ℚ
  transparency : ℚ
  refractive_index : ℚ
  has_texture : Bool
  emission_color : Vec3
  emission_strength : ℚ
  deriving DecidableEq, Repr

/-- Default material values of Material.h. -/
def Material.default : Material :=
  { diffuse_color := ⟨4/5, 4/5, 4/5⟩
    specular_color := ⟨1, 1, 1⟩
    ambient_color := ⟨1/10, 1/10, 1/10⟩
    shininess := 32
    glossiness := 0
    reflectivity := 0
    transparency := 0
    refractive_index := 1
    has_texture := false
    emission_color := ⟨0, 0, 0⟩
    emission_strength := 0 }

instance : Inhabited Material := ⟨Material.default⟩

/-- HitRecord of HitRecord.h.  The object_name string, the u/v texture
coordinates and the tangent/bitangent frame are omitted: no claim mentions
them, and the one place the shader consumes them (texture and normal-map
sampling) is modelled by oracles. -/
structure HitRecord where
  intersection_point : Vec3
  normal : Vec3
  t : ℚ
  front_face : Bool
  material : Material
  deriving DecidableEq, Repr

/-- HitRecord::set_face_normal: returns the front_face flag and the stored
normal computed from the outward normal. -/
def setFaceNormal (ray : Ray) (outward_normal : Vec3) : Bool × Vec3 :=
  let ff := decide (ray.direction.dot outward_normal < 0)
  (ff, if ff then outward_normal else -outward_normal)

/-- Mat4 of Transform.h: a 4x4 matrix of doubles, row major (m[i][j] becomes
the field mij). -/
structure Mat4 where
  m00 : ℚ
  m01 : ℚ
  m02 : ℚ
  m03 : ℚ
  m10 : ℚ
  m11 : ℚ
  m12 : ℚ
  m13 : ℚ
  m20 : ℚ
  m21 : ℚ
  m22 : ℚ
  m23 : ℚ
  m30 : ℚ
  m31 : ℚ
  m32 : ℚ
  m33 : ℚ
  deriving DecidableEq, Repr

namespace Mat4

/-- Mat4's default constructor: the identity matrix. -/
def identity : Mat4 := ⟨1,0,0,0, 0,1,0,0, 0,0,1,0, 0,0,0,1⟩

instance : Inhabited Mat4 := ⟨identity⟩

/-- Mat4::operator*: matrix multiplication, the i,j entry being the dot
product of row i of the left factor with column j of the right factor. -/
def mul (a b : Mat4) : Mat4 :=
  ⟨a.m00*b.m00 + a.m01*b.m10 + a.m02*b.m20 + a.m03*b.m30,
   a.m00*b.m01 + a.m01*b.m11 + a.m02*b.m21 + a.m03*b.m31,
   a.m00*b.m02 + a.m01*b.m12 + a.m02*b.m22 + a.m03*b.m32,
   a.m00*b.m03 + a.m01*b.m13 + a.m02*b.m23 + a.m03*b.m33,
   a.m10*b.m00 + a.m11*b.m10 + a.m12*b.m20 + a.m13*b.m30,
   a.m10*b.m01 + a.m11*b.m11 + a.m12*b.m21 + a.m13*b.m31,
   a.m10*b.m02 + a.m11*b.m12 + a.m12*b.m22 + a.m13*b.m32,
   a.m10*b.m03 + a.m11*b.m13 + a.m12*b.m23 + a.m13*b.m33,
   a.m20*b.m00 + a.m21*b.m10 + a.m22*b.m20 + a.m23*b.m30,
   a.m20*b.m01 + a.m21*b.m11 + a.m22*b.m21 + a.m23*b.m31,
   a.m20*b.m02 + a.m21*b.m12 + a.m22*b.m22 + a.m23*b.m32,
   a.m20*b.m03 + a.m21*b.m13 + a.m22*b.m23 + a.m23*b.m33,
   a.m30*b.m00 + a.m31*b.m10 + a.m32*b.m20 + a.m33*b.m30,
   a.m30*b.m01 + a.m31*b.m11 + a.m32*b.m21 + a.m33*b.m31,
   a.m30*b.m02 + a.m31*b.m12 + a.m32*b.m22 + a.m33*b.m32,
   a.m30*b.m03 + a.m31*b.m13 + a.m32*b.m23 + a.m33*b.m33⟩

/-- Mat4::transform_point (w = 1, with the homogeneous divide the code
performs when w is neither 1 nor 0). -/
def transform_point (a : Mat4) (p : Vec3) : Vec3 :=
  let x := a.m00 * p.x + a.m01 * p.y + a.m02 * p.z + a.m03
  let y := a.m10 * p.x + a.m11 * p.y + a.m12 * p.z + a.m13
  let z := a.m20 * p.x + a.m21 * p.y + a.m22 * p.z + a.m23
  let w := a.m30 * p.x + a.m31 * p.y + a.m32 * p.z + a.m33
  if w ≠ 1 ∧ w ≠ 0 then ⟨x / w, y / w, z / w⟩ else ⟨x, y, z⟩

/-- Mat4::transform_direction (w = 0). -/
def transform_direction (a : Mat4) (d : Vec3) : Vec3 :=
  ⟨a.m00 * d.x + a.m01 * d.y + a.m02 * d.z,
   a.m10 * d.x + a.m11 * d.y + a.m12 * d.z,
   a.m20 * d.x + a.m21 * d.y + a.m22 * d.z⟩

/-- Mat4::transform_normal: multiply by the transpose from the left, then
normalize (the C++ calls .norm(), hence the square-root oracle). -/
def transform_normal (sq : ℚ → ℚ) (a : Mat4) (n : Vec3) : Vec3 :=
  (Vec3.mk (a.m00 * n.x + a.m10 * n.y + a.m20 * n.z)
    (a.m01 * n.x + a.m11 * n.y + a.m21 * n.z)
    (a.m02 * n.x + a.m12 * n.y + a.m22 * n.z)).norm sq

/-- Mat4::translate. -/
def translate (t : Vec3) : Mat4 := ⟨1,0,0,t.x, 0,1,0,t.y, 0,0,1,t.z, 0,0,0,1⟩

/-- Mat4::scale. -/
def scaleM (sx sy sz : ℚ) : Mat4 := ⟨sx,0,0,0, 0,sy,0,0, 0,0,sz,0, 0,0,0,1⟩

end Mat4

/-- Transform of Transform.h: an object-to-world matrix paired with its
inverse.  Both matrices are carried as data (the C++ precomputes the pair in
the scene loader); Mat4::inverse (pivoted Gaussian elimination) is not
re-executed by any claim, so it is not embedded. -/
structure Transform where
  object_to_world : Mat4
  world_to_object : Mat4
  deriving DecidableEq, Repr

namespace Transform

/-- Transform's default constructor: identity in both directions. -/
def identity : Transform := ⟨Mat4.identity, Mat4.identity⟩

instance : Inhabited Transform := ⟨identity⟩

/-- Transform::world_to_object_ray. -/
def world_to_object_ray (tr : Transform) (world_ray : Ray) : Ray :=
  ⟨tr.world_to_object.transform_point world_ray.origin,
   tr.world_to_object.transform_direction world_ray.direction,
   world_ray.time⟩

/-- Transform::object_to_world_point. -/
def object_to_world_point (tr : Transform) (p : Vec3) : Vec3 :=
  tr.object_to_world.transform_point p

/-- Transform::object_to_world_normal: transform by the inverse matrix using
the inverse-transpose rule, then normalize. -/
def object_to_world_normal (sq : ℚ → ℚ) (tr : Transform) (n : Vec3) : Vec3 :=
  (tr.world_to_object.transform_normal sq n).norm sq

/-- Transform::object_to_world_direction. -/
def object_to_world_direction (sq : ℚ → ℚ) (tr : Transform) (d : Vec3) : Vec3 :=
  (tr.object_to_world.transform_direction d).norm sq

end Transform

/-- BoundingBox of BoundingBox.h. -/
structure BoundingBox where
  min : Vec3
  max : Vec3
  deriving DecidableEq, Repr

/-- One slab step of BoundingBox::intersect for a single axis: given the
current (t_min, t_max) interval, intersect it with the slab of the axis and
report none when the interval becomes empty (t_max ≤ t_min).  The C++
computes inv_d = 1.0 / direction[axis] in IEEE arithmetic; the embedding is
faithful whenever that component is nonzero (in ℚ a zero component gives
inv_d = 0 rather than ±infinity, and every concrete input used by a theorem
below keeps all direction components nonzero). -/
def slabStep (bmin bmax o d t_min t_max : ℚ) : Option (ℚ × ℚ) :=
  let inv_d := 1 / d
  let t0 := (bmin - o) * inv_d
  let t1 := (bmax - o) * inv_d
  let t0' := if inv_d < 0 then t1 else t0
  let t1' := if inv_d < 0 then t0 else t1
  let tmin' := max t0' t_min
  let tmax' := min t1' t_max
  if tmax' ≤ tmin' then none else some (tmin', tmax')

/-- BoundingBox::intersect: the slab test over the three axes, in order,
returning false as soon as the running interval is empty. -/
def BoundingBox.intersect (bb : BoundingBox) (ray : Ray) (t_min t_max : ℚ) : Bool :=
  match slabStep bb.min.x bb.max.x ray.origin.x ray.direction.x t_min t_max with
  | none => false
  | some (a0, b0) =>
    match slabStep bb.min.y bb.max.y ray.origin.y ray.direction.y a0 b0 with
    | none => false
    | some (a1, b1) =>
      match slabStep bb.min.z bb.max.z ray.origin.z ray.direction.z a1 b1 with
      | none => false
      | some _ => true

/-- areSame of Intersections.cpp: |a - b| ≤ DBL_EPSILON, with DBL_EPSILON
= 2^-52. -/
def areSame (a b : ℚ) : Bool := |a - b| ≤ 1 / 2 ^ 52

/-- Sphere of Sphere.h.  Shared Shape fields kept: material, visible,
has_motion, cached_transform, plus the location used by the BVH builder for
the object center.  The string name/type fields and the loader-only
scale/rotation Euler fields (consumed only when the loader precomputes
cached_transform) are omitted.  Motion-blur keyframe matrices are not carried:
every theorem below either fixes has_motion = false or quantifies over the
interpolated transform through the motion oracle of the solver. -/
structure Sphere where
  material : Material
  visible : Bool
  has_motion : Bool
  cached_transform : Transform
  location : Vec3
  deriving DecidableEq, Repr

/-- Plane of Plane.h, fields as for Sphere plus the boundary point list. -/
structure Plane where
  material : Material
  visible : Bool
  has_motion : Bool
  cached_transform : Transform
  points : List Vec3
  deriving DecidableEq, Repr

/-- Cube of Cube.h; its solver and bounding box are oracles (see
OtherSolvers), so only the fields the BVH builder reads are embedded. -/
structure Cube where
  visible : Bool
  translation : Vec3
  deriving DecidableEq, Repr

/-- Torus record as read by the BVH builder (the torus solver itself is
analysed separately through its Newton-refinement phase, and as an oracle in
the BVH dispatch). -/
structure Torus where
  visible : Bool
  location : Vec3
  deriving DecidableEq, Repr

/-- Cylinder record as read by the BVH builder. -/
structure Cylinder where
  visible : Bool
  location : Vec3
  deriving DecidableEq, Repr

/-- Cone record as read by the BVH builder. -/
structure Cone where
  visible : Bool
  location : Vec3
  deriving DecidableEq, Repr

instance : Inhabited Sphere :=
  ⟨⟨Material.default, true, false, Transform.identity, 0⟩⟩

instance : Inhabited Plane :=
  ⟨⟨Material.default, true, false, Transform.identity, []⟩⟩

instance : Inhabited Cube := ⟨⟨true, 0⟩⟩

instance : Inhabited Torus := ⟨⟨true, 0⟩⟩

instance : Inhabited Cylinder := ⟨⟨true, 0⟩⟩

instance : Inhabited Cone := ⟨⟨true, 0⟩⟩

/-- Scene of Scene.h restricted to the primitive lists (cameras, lights and
global settings play no role in any claim about intersection). -/
structure Scene where
  spheres : List Sphere
  cubes : List Cube
  planes : List Plane
  toruses : List Torus
  cylinders : List Cylinder
  cones : List Cone

/-- Effective transform of a shape for a given ray: the C++ pattern
`has_motion ? Transform(Mat4::interpolate(start, end, ray.time))
           : cached_transform`
shared by every solver.  Mat4::interpolate at an arbitrary time calls
transcendental functions (SLERP), so the interpolated transform is an oracle
parameter motion; claims about the solvers hold for every value of it. -/
def effectiveTransform (motion : ℚ → Transform) (has_motion : Bool)
    (cached : Transform) (time : ℚ) : Transform :=
  if has_motion then motion time else cached

/-- Hit record a sphere intersection builds from an accepted object-space
root (Sphere.cpp steps 4 to 6; the u/v and tangent-frame steps 7 and 8 are
omitted with the corresponding HitRecord fields).  The world-space t is
recomputed from the world-space hit point, as the code does. -/
def sphereHitFromRoot (sq : ℚ → ℚ) (sphere : Sphere) (transform : Transform)
    (ray : Ray) (object_ray : Ray) (root : ℚ) : HitRecord :=
  let object_hit_point := object_ray.origin + object_ray.direction * root
  let object_normal := object_hit_point
  let intersection_point := transform.object_to_world_point object_hit_point
  let world_offset := intersection_point - ray.origin
  let t := world_offset.length sq / ray.direction.length sq
  let world_normal := transform.object_to_world_normal sq object_normal
  let fn := setFaceNormal ray world_normal
  ⟨intersection_point, fn.2, t, fn.1, sphere.material⟩

/-- intersect_sphere of Sphere.cpp: transform the ray to object space, solve
the unit-sphere quadratic, accept the nearest root with
t_min ≤ root ≤ t_max (the code rejects on root < t_min || root > t_max),
else the far root, else no hit. -/
def intersect_sphere (sq : ℚ → ℚ) (motion : ℚ → Transform) (sphere : Sphere)
    (ray : Ray) (t_min t_max : ℚ) : Option HitRecord :=
  let transform :=
    effectiveTransform motion sphere.has_motion sphere.cached_transform ray.time
  let object_ray := transform.world_to_object_ray ray
  let oc := object_ray.origin
  let a := object_ray.direction.length_squared
  let half_b := oc.dot object_ray.direction
  let c := oc.length_squared - 1
  let discriminant := half_b * half_b - a * c
  if discriminant < 0 then none
  else
    let sqrtd := sq discriminant
    let root₁ := (-half_b - sqrtd) / a
    if root₁ < t_min ∨ root₁ > t_max then
      let root₂ := (-half_b + sqrtd) / a
      if root₂ < t_min ∨ root₂ > t_max then none
      else some (sphereHitFromRoot sq sphere transform ray object_ray root₂)
    else some (sphereHitFromRoot sq sphere transform ray object_ray root₁)

/-- intersect_plane of Plane.cpp.  The C++ first rejects point lists of size
below 3 and then reads points[0..2]; the embedding matches on the first three
list elements, which is the same test.  The u/v and tangent computations at
the end are omitted with the corresponding HitRecord fields. -/
def intersect_plane (sq : ℚ → ℚ) (plane : Plane) (ray : Ray)
    (t_min t_max : ℚ) : Option HitRecord :=
  match plane.points with
  | p0 :: p1 :: p2 :: _ =>
    let v1 := p1 - p0
    let v2 := p2 - p0
    let plane_normal := (v1.cross v2).norm sq
    let denom := plane_normal.dot ray.direction
    if areSame denom 0 then none
    else
      let t := (p0 - ray.origin).dot plane_normal / denom
      if t < t_min ∨ t > t_max then none
      else
        let intersection_point := ray.origin + ray.direction * t
        let min_bound := plane.points.foldl
          (fun (acc : Vec3) p => ⟨min acc.x p.x, min acc.y p.y, min acc.z p.z⟩) p0
        let max_bound := plane.points.foldl
          (fun (acc : Vec3) p => ⟨max acc.x p.x, max acc.y p.y, max acc.z p.z⟩) p0
        let tolerance : ℚ := 1 / 10 ^ 6
        let okx := if max_bound.x - min_bound.x > tolerance then
            decide (min_bound.x - tolerance ≤ intersection_point.x
              ∧ intersection_point.x ≤ max_bound.x + tolerance)
          else true
        let oky := if max_bound.y - min_bound.y > tolerance then
            decide (min_bound.y - tolerance ≤ intersection_point.y
              ∧ intersection_point.y ≤ max_bound.y + tolerance)
          else true
        let okz := if max_bound.z - min_bound.z > tolerance then
            decide (min_bound.z - tolerance ≤ intersection_point.z
              ∧ intersection_point.z ≤ max_bound.z + tolerance)
          else true
        if okx && oky && okz then
          let fn := setFaceNormal ray plane_normal
          some ⟨intersection_point, fn.2, t, fn.1, plane.material⟩
        else none
  | _ => none

/-- Transform::transform_bbox: transform the eight corners by the
object-to-world matrix and take the componentwise min/max. -/
def Transform.transform_bbox (tr : Transform) (bb : BoundingBox) : BoundingBox :=
  let c0 := tr.object_to_world.transform_point ⟨bb.min.x, bb.min.y, bb.min.z⟩
  let c1 := tr.object_to_world.transform_point ⟨bb.max.x, bb.min.y, bb.min.z⟩
  let c2 := tr.object_to_world.transform_point ⟨bb.min.x, bb.max.y, bb.min.z⟩
  let c3 := tr.object_to_world.transform_point ⟨bb.max.x, bb.max.y, bb.min.z⟩
  let c4 := tr.object_to_world.transform_point ⟨bb.min.x, bb.min.y, bb.max.z⟩
  let c5 := tr.object_to_world.transform_point ⟨bb.max.x, bb.min.y, bb.max.z⟩
  let c6 := tr.object_to_world.transform_point ⟨bb.min.x, bb.max.y, bb.max.z⟩
  let c7 := tr.object_to_world.transform_point ⟨bb.max.x, bb.max.y, bb.max.z⟩
  let corners := [c1, c2, c3, c4, c5, c6, c7]
  ⟨corners.foldl (fun (a : Vec3) c => ⟨min a.x c.x, min a.y c.y, min a.z c.z⟩) c0,
   corners.foldl (fun (a : Vec3) c => ⟨max a.x c.x, max a.y c.y, max a.z c.z⟩) c0⟩

/-- Oracle bundle for the parts of the BVH dispatch whose bodies no claim
examines: the cube/torus/cylinder/cone solvers and bounding boxes, the
motion-blur branch of the sphere/plane bounding boxes (it would need
Mat4::inverse, which no claim exercises), and the per-shape interpolated
transform of a moving sphere.  Theorems about the BVH quantify over this
bundle, so they hold whatever those routines compute. -/
structure GeomOracles where
  intersect_cube : Cube → Ray → ℚ → ℚ → Option HitRecord
  intersect_torus : Torus → Ray → ℚ → ℚ → Option HitRecord
  intersect_cylinder : Cylinder → Ray → ℚ → ℚ → Option HitRecord
  intersect_cone : Cone → Ray → ℚ → ℚ → Option HitRecord
  cube_bbox : Cube → BoundingBox
  torus_bbox : Torus → BoundingBox
  cylinder_bbox : Cylinder → BoundingBox
  cone_bbox : Cone → BoundingBox
  sphere_motion_bbox : Sphere → BoundingBox → BoundingBox
  plane_motion_bbox : Plane → BoundingBox → BoundingBox
  sphere_motion : Sphere → ℚ → Transform

/-- get_sphere_bounding_box of Sphere.cpp: the unit cube around the unit
sphere pushed through the transform; for a moving sphere the union of the two
keyframe boxes is the oracle sphere_motion_bbox. -/
def get_sphere_bounding_box (go : GeomOracles) (s : Sphere) : BoundingBox :=
  let object_bbox : BoundingBox := ⟨⟨-1, -1, -1⟩, ⟨1, 1, 1⟩⟩
  if s.has_motion then go.sphere_motion_bbox s object_bbox
  else s.cached_transform.transform_bbox object_bbox

/-- get_plane_bounding_box of Plane.cpp: componentwise bounds of the boundary
points (the empty list giving the degenerate zero box), pushed through the
transform; the motion branch is the oracle plane_motion_bbox. -/
def get_plane_bounding_box (go : GeomOracles) (p : Plane) : BoundingBox :=
  match p.points with
  | [] => ⟨0, 0⟩
  | p0 :: rest =>
    let min_point := rest.foldl
      (fun (a : Vec3) q => ⟨min a.x q.x, min a.y q.y, min a.z q.z⟩) p0
    let max_point := rest.foldl
      (fun (a : Vec3) q => ⟨max a.x q.x, max a.y q.y, max a.z q.z⟩) p0
    let object_bbox : BoundingBox := ⟨min_point, max_point⟩
    if p.has_motion then go.plane_motion_bbox p object_bbox
    else p.cached_transform.transform_bbox object_bbox

/-- Union of two bounding boxes, the expand-to-include step of
compute_bounding_box_for_objects. -/
def BoundingBox.union (a b : BoundingBox) : BoundingBox :=
  ⟨⟨Min.min a.min.x b.min.x, Min.min a.min.y b.min.y, Min.min a.min.z b.min.z⟩,
   ⟨Max.max a.max.x b.max.x, Max.max a.max.y b.max.y, Max.max a.max.z b.max.z⟩⟩

/-- Bounding box of the object with the given global index, following the
index ranges of Bvh.cpp: spheres, then cubes, planes, toruses, cylinders,
cones.  Out-of-range accesses are undefined behaviour in the C++ and resolve
to the Inhabited default here. -/
def objBBox (go : GeomOracles) (scene : Scene) (idx : ℕ) : BoundingBox :=
  let ns := scene.spheres.length
  let nc := scene.cubes.length
  let np := scene.planes.length
  let nt := scene.toruses.length
  let ncy := scene.cylinders.length
  if idx < ns then get_sphere_bounding_box go (scene.spheres.getD idx default)
  else if idx < ns + nc then go.cube_bbox (scene.cubes.getD (idx - ns) default)
  else if idx < ns + nc + np then
    get_plane_bounding_box go (scene.planes.getD (idx - ns - nc) default)
  else if idx < ns + nc + np + nt then
    go.torus_bbox (scene.toruses.getD (idx - ns - nc - np) default)
  else if idx < ns + nc + np + nt + ncy then
    go.cylinder_bbox (scene.cylinders.getD (idx - ns - nc - np - nt) default)
  else go.cone_bbox (scene.cones.getD (idx - ns - nc - np - nt - ncy) default)

/-- compute_bounding_box_for_objects of Bvh.cpp: the degenerate zero box for
an empty index set, otherwise the union over the boxes of all objects
starting from the first. -/
def compute_bounding_box_for_objects (go : GeomOracles) (object_indices : List ℕ)
    (scene : Scene) : BoundingBox :=
  match object_indices with
  | [] => ⟨0, 0⟩
  | i0 :: rest =>
    rest.foldl (fun acc i => acc.union (objBBox go scene i)) (objBBox go scene i0)

/-- choose_split_axis of Bvh.cpp: the axis of largest extent (0 = X, 1 = Y,
2 = Z). -/
def choose_split_axis (bbox : BoundingBox) : ℕ :=
  let extent := bbox.max - bbox.min
  if extent.x > extent.y ∧ extent.x > extent.z then 0
  else if extent.y > extent.z then 1
  else 2

/-- get_obj_center of Bvh.cpp: location for spheres/toruses/cylinders/cones,
translation for cubes, the average of the boundary points for planes (with
the division-by-zero guard returning the origin for an empty point list). -/
def get_obj_center (scene : Scene) (object_index : ℕ) : Vec3 :=
  let ns := scene.spheres.length
  let nc := scene.cubes.length
  let np := scene.planes.length
  let nt := scene.toruses.length
  let ncy := scene.cylinders.length
  if object_index < ns then (scene.spheres.getD object_index default).location
  else if object_index < ns + nc then
    (scene.cubes.getD (object_index - ns) default).translation
  else if object_index < ns + nc + np then
    let plane := scene.planes.getD (object_index - ns - nc) default
    if plane.points.isEmpty then ⟨0, 0, 0⟩
    else (plane.points.foldl (fun acc p => acc + p) 0) *
      (1 / (plane.points.length : ℚ))
  else if object_index < ns + nc + np + nt then
    (scene.toruses.getD (object_index - ns - nc - np) default).location
  else if object_index < ns + nc + np + nt + ncy then
    (scene.cylinders.getD (object_index - ns - nc - np - nt) default).location
  else (scene.cones.getD (object_index - ns - nc - np - nt - ncy) default).location

/-- Stable insertion of an index into a list sorted by the key. -/
def insertSorted (key : ℕ → ℚ) (a : ℕ) : List ℕ → List ℕ
  | [] => [a]
  | b :: bs => if key a < key b then a :: b :: bs else b :: insertSorted key a bs

/-- Stable insertion sort by the key. -/
def sortByKey (key : ℕ → ℚ) (l : List ℕ) : List ℕ :=
  l.foldr (insertSorted key) []

/-- partition_objs of Bvh.cpp: median split of the indices by object center
along the chosen axis.  The C++ uses std::nth_element, whose resulting
element order away from the median is unspecified; the embedding realizes the
same postcondition (the mid lowest-center indices on the left, the rest on
the right) with a stable sort. -/
def partition_objs (object_indices : List ℕ) (scene : Scene) (axis : ℕ) :
    List ℕ × List ℕ :=
  if object_indices.length ≤ 1 then (object_indices, [])
  else
    let sorted_indices :=
      sortByKey (fun i => (get_obj_center scene i).nth axis) object_indices
    let mid := sorted_indices.length / 2
    let mid := if mid = 0 then 1 else mid
    (sorted_indices.take mid, sorted_indices.drop mid)

/-- MAX_LEAF_SIZE of Bvh.h. -/
def MAX_LEAF_SIZE : ℕ := 2

/-- MAX_DEPTH of Bvh.h. -/
def MAX_DEPTH : ℕ := 30

/-- BVHNode of Bvh.h.  The C++ struct stores two nullable children plus an
index list and calls a node a leaf when both children are null; build_bvh
only ever creates the two forms below. -/
inductive BVHNode where
  | leaf (bbox : BoundingBox) (object_indices : List ℕ)
  | node (bbox : BoundingBox) (left : BVHNode) (right : BVHNode)
  deriving Repr

/-- Bounding box stored at a BVH node. -/
def BVHNode.nodeBox : BVHNode → BoundingBox
  | .leaf bbox _ => bbox
  | .node bbox _ _ => bbox

/-- Recursion core of build_bvh, structurally recursive on the fuel
MAX_DEPTH - depth: fuel 0 holds exactly when depth ≥ MAX_DEPTH, which is the
depth-limit leaf condition of the C++ (the size-threshold test is subsumed:
at the depth limit the C++ creates a leaf regardless of size). -/
def buildBVHAux (go : GeomOracles) (scene : Scene) :
    ℕ → List ℕ → BVHNode
  | 0, object_indices =>
    .leaf (compute_bounding_box_for_objects go object_indices scene) object_indices
  | fuel + 1, object_indices =>
    let bbox := compute_bounding_box_for_objects go object_indices scene
    if object_indices.length ≤ MAX_LEAF_SIZE then .leaf bbox object_indices
    else
      let axis := choose_split_axis bbox
      let pr := partition_objs object_indices scene axis
      if pr.1.isEmpty ∨ pr.2.isEmpty then .leaf bbox object_indices
      else .node bbox (buildBVHAux go scene fuel pr.1) (buildBVHAux go scene fuel pr.2)

/-- build_bvh of Bvh.cpp. -/
def build_bvh (go : GeomOracles) (object_indices : List ℕ) (scene : Scene)
    (depth : ℕ) : BVHNode :=
  buildBVHAux go scene (MAX_DEPTH - depth) object_indices

/-- intersect_obj of Bvh.cpp: the visibility check followed by the dispatch
on the global index ranges.  The thread-local statistics counter is not
modelled. -/
def intersect_obj (go : GeomOracles) (sq : ℚ → ℚ) (ray : Ray) (scene : Scene)
    (idx : ℕ) (t_min t_max : ℚ) : Option HitRecord :=
  let ns := scene.spheres.length
  let nc := scene.cubes.length
  let np := scene.planes.length
  let nt := scene.toruses.length
  let ncy := scene.cylinders.length
  let visible :=
    if idx < ns then (scene.spheres.getD idx default).visible
    else if idx < ns + nc then (scene.cubes.getD (idx - ns) default).visible
    else if idx < ns + nc + np then
      (scene.planes.getD (idx - ns - nc) default).visible
    else if idx < ns + nc + np + nt then
      (scene.toruses.getD (idx - ns - nc - np) default).visible
    else if idx < ns + nc + np + nt + ncy then
      (scene.cylinders.getD (idx - ns - nc - np - nt) default).visible
    else (scene.cones.getD (idx - ns - nc - np - nt - ncy) default).visible
  if ¬ visible then none
  else if idx < ns then
    let s := scene.spheres.getD idx default
    intersect_sphere sq (go.sphere_motion s) s ray t_min t_max
  else if idx < ns + nc then
    go.intersect_cube (scene.cubes.getD (idx - ns) default) ray t_min t_max
  else if idx < ns + nc + np then
    intersect_plane sq (scene.planes.getD (idx - ns - nc) default) ray t_min t_max
  else if idx < ns + nc + np + nt then
    go.intersect_torus (scene.toruses.getD (idx - ns - nc - np) default) ray t_min t_max
  else if idx < ns + nc + np + nt + ncy then
    go.intersect_cylinder (scene.cylinders.getD (idx - ns - nc - np - nt) default)
      ray t_min t_max
  else
    go.intersect_cone (scene.cones.getD (idx - ns - nc - np - nt - ncy) default)
      ray t_min t_max

/-- intersect_bvh of Bvh.cpp.  The C++ mutates a caller-owned closest hit and
closest t; the embedding threads that state explicitly and returns
(hit-found flag, closest hit, closest t). -/
def intersect_bvh (go : GeomOracles) (sq : ℚ → ℚ) (ray : Ray) (scene : Scene) :
    BVHNode → Option HitRecord → ℚ → ℚ → Bool × Option HitRecord × ℚ
  | nd, closest_hit, t_min, closest_t =>
    if ¬ nd.nodeBox.intersect ray t_min closest_t then (false, closest_hit, closest_t)
    else
      match nd with
      | .leaf _ object_indices =>
        object_indices.foldl
          (fun (acc : Bool × Option HitRecord × ℚ) idx =>
            match intersect_obj go sq ray scene idx t_min acc.2.2 with
            | some h => (true, some h, h.t)
            | none => acc)
          (false, closest_hit, closest_t)
      | .node _ l r =>
        let resL := intersect_bvh go sq ray scene l closest_hit t_min closest_t
        let resR := intersect_bvh go sq ray scene r resL.2.1 t_min resL.2.2
        (resL.1 || resR.1, resR.2)

/-- Total number of primitives in the scene, the index range of the BVH. -/
def totalObjects (scene : Scene) : ℕ :=
  scene.spheres.length + scene.cubes.length + scene.planes.length +
    scene.toruses.length + scene.cylinders.length + scene.cones.length

/-- Modelled from the spec: the repository has no standalone brute-force
traversal (only the BVH path exists), and the spec's BVH-equivalence property
defines the reference as testing every primitive.  This is that reference:
intersect_obj on every index in order, narrowing the valid interval to the
closest hit found so far, exactly as the BVH leaf loop does. -/
def bruteForceIntersect (go : GeomOracles) (sq : ℚ → ℚ) (ray : Ray)
    (scene : Scene) (t_min t_max : ℚ) : Bool × Option HitRecord × ℚ :=
  (List.range (totalObjects scene)).foldl
    (fun (acc : Bool × Option HitRecord × ℚ) idx =>
      match intersect_obj go sq ray scene idx t_min acc.2.2 with
      | some h => (true, some h, h.t)
      | none => acc)
    (false, none, t_max)

/-! Torus Newton-Raphson refinement, Torus.cpp.  The analytic quartic solve
producing the nearest root involves cube and square roots; the refinement
loop that follows it, and the accept/discard decision the claim is about, are
polynomial and embedded exactly.  The refinement runs on the object-space ray
(origin o, direction d normalized to unit length by the code), with current_t
the nearest analytic root already known to satisfy
t_min * dir_length ≤ current_t < t_max * dir_length. -/

/-- One-to-three iterations of the Newton loop of intersect_torus, with the
three early-exit tolerances of the code: |F| below 1e-10, derivative below
1e-8 (both leaving t unchanged), and step below 1e-6 (after applying the
step).  The fuel is 3 in the code. -/
def newtonRefine (R_sq r_tube_sq four_R_sq : ℚ) (o d : Vec3) :
    ℕ → ℚ → ℚ
  | 0, t => t
  | fuel + 1, t =>
    let p := o + d * t
    let sum_sq := p.x * p.x + p.y * p.y + p.z * p.z
    let xy_sq := p.x * p.x + p.y * p.y
    let term := sum_sq + R_sq - r_tube_sq
    let val := term * term - four_R_sq * xy_sq
    if |val| < 1 / 10 ^ 10 then t
    else
      let common := 4 * term
      let df_dx := common * p.x - 2 * four_R_sq * p.x
      let df_dy := common * p.y - 2 * four_R_sq * p.y
      let df_dz := common * p.z
      let derivative := df_dx * d.x + df_dy * d.y + df_dz * d.z
      if |derivative| < 1 / 10 ^ 8 then t
      else
        let step := val / derivative
        let t' := t - step
        if |step| < 1 / 10 ^ 6 then t'
        else newtonRefine R_sq r_tube_sq four_R_sq o d fuel t'

/-- Refine-then-accept phase of intersect_torus: refine the nearest analytic
root with 3 Newton iterations, then discard the hit iff the refined
parameter falls below t_min * dir_length or above t_max * dir_length (the
code tests t_refined < t_min * dir_length || t_refined > t_max * dir_length);
otherwise the hit is reported with the refined parameter, whose world-space
form the code derives from the hit point it generates. -/
def torusRefineAccept (R_sq r_tube_sq four_R_sq : ℚ) (o d : Vec3)
    (dir_length t_min t_max current_t : ℚ) : Option ℚ :=
  let t_refined := newtonRefine R_sq r_tube_sq four_R_sq o d 3 current_t
  if t_refined < t_min * dir_length ∨ t_refined > t_max * dir_length then none
  else some t_refined

/-! Recursive tracer, Raytracer.cpp (Raytracer::trace).  The embedding is one
evaluation step of trace: the scene query (intersect_bvh over the whole
scene), the local shading (lights, shadows and texture fetches), the
normal-map perturbation, the importance-sampled glossy directions (functions
of two uniform randoms through transcendental maps) and the recursive trace
calls are oracles carried in TraceEnv, so every theorem about trace holds for
all values of those subcomputations.  The returned natural number counts the
intersection queries the step itself performs (0 or 1). -/

/-- RenderConfig of config.h restricted to the fields trace reads. -/
structure RenderConfig where
  max_ray_depth : ℕ
  ray_offset_epsilon : ℚ
  use_adaptive_epsilon : Bool
  adaptive_epsilon_scale : ℚ
  glossy_samples : ℕ
  pure_glass_threshold : ℚ
  deriving DecidableEq, Repr

/-- reflect_dir of Raytracer.cpp. -/
def reflect_dir (incident normal : Vec3) : Vec3 :=
  incident - normal * (2 * incident.dot normal)

/-- schlick_fresnel of Raytracer.cpp. -/
def schlick_fresnel (cosine eta_ratio : ℚ) : ℚ :=
  let r0 := (eta_ratio - 1) / (eta_ratio + 1)
  let r0 := r0 * r0
  r0 + (1 - r0) * (1 - cosine) ^ 5

/-- Oracle environment of one trace step; see the section comment above. -/
structure TraceEnv where
  cfg : RenderConfig
  sq : ℚ → ℚ
  query : Ray → Option HitRecord
  shade : HitRecord → Vec3 → Vec3
  normal_map : HitRecord → Vec3
  tex : HitRecord → Option Vec3
  localDir : ℕ → Vec3
  recur : Ray → ℕ → Vec3
  background : Vec3

/-- Self-intersection offset of trace: the base epsilon, plus the adaptive
term proportional to the hit point's distance from the world origin when
use_adaptive_epsilon is set. -/
def rayEpsilon (env : TraceEnv) (hit : HitRecord) : ℚ :=
  env.cfg.ray_offset_epsilon +
    (if env.cfg.use_adaptive_epsilon then
      hit.intersection_point.length env.sq * env.cfg.adaptive_epsilon_scale
    else 0)

/-- Raytracer::trace, one step (recursive calls through env.recur): the depth
guard, the scene query, local shading with the pure-glass skip, the
reflection branch (single mirror ray or the averaged glossy loop, metal
tinting, blending by reflectivity), the refraction branch (Schlick Fresnel,
total internal reflection, and the early return of the pure-glass case), and
the emission term added on return. -/
def trace (env : TraceEnv) (ray : Ray) (depth : ℕ) : Vec3 × ℕ :=
  if depth ≥ env.cfg.max_ray_depth then (⟨0, 0, 0⟩, 0)
  else
    match env.query ray with
    | none => (env.background, 1)
    | some hit =>
      let view_dir := -ray.direction
      let is_pure_glass := hit.material.transparency ≥ env.cfg.pure_glass_threshold
      let color0 : Vec3 := if is_pure_glass then ⟨0, 0, 0⟩ else env.shade hit view_dir
      let shading_normal := env.normal_map hit
      let color1 :=
        if hit.material.reflectivity > 0 then
          let r := reflect_dir ray.direction shading_normal
          let epsilon := rayEpsilon env hit
          let samples : ℕ :=
            if 1 < env.cfg.glossy_samples ∧ hit.material.glossiness < 94 / 100
                ∧ depth < 2 then
              env.cfg.glossy_samples
            else 1
          let reflection_accum :=
            if samples = 1 ∨ hit.material.glossiness > 94 / 100 then
              env.recur ⟨hit.intersection_point + hit.normal * epsilon, r, ray.time⟩
                (depth + 1)
            else
              let w := r
              let u := (Vec3.cross
                (if |w.x| > 1 / 10 then (⟨0, 1, 0⟩ : Vec3) else ⟨1, 0, 0⟩) w).norm env.sq
              let v := w.cross u
              let total := (List.range samples).foldl
                (fun (acc : Vec3) i =>
                  let local_dir := env.localDir i
                  let sample_dir :=
                    (u * local_dir.x + v * local_dir.y + w * local_dir.z).norm env.sq
                  let sample_dir :=
                    if sample_dir.dot hit.normal < 0 then r else sample_dir
                  acc + env.recur
                    ⟨hit.intersection_point + hit.normal * epsilon, sample_dir, ray.time⟩
                    (depth + 1))
                ⟨0, 0, 0⟩
              total / (samples : ℚ)
          let reflection_tint :=
            match (if hit.material.has_texture then env.tex hit else none) with
            | some tex => tex * hit.material.diffuse_color
            | none => hit.material.diffuse_color
          let is_metal := hit.material.reflectivity > 1 / 2
            ∧ hit.material.transparency < 1 / 10
          let reflection_accum :=
            if is_metal then reflection_accum * reflection_tint else reflection_accum
          color0 * (1 - hit.material.reflectivity)
            + reflection_accum * hit.material.reflectivity
        else color0
      let res : Vec3 ⊕ Vec3 :=
        if hit.material.transparency > 0 then
          let eta := if hit.front_face then 1 / hit.material.refractive_index
            else hit.material.refractive_index
          let norm := hit.normal
          let epsilon := rayEpsilon env hit
          let cos_theta := |ray.direction.dot norm|
          let fresnel := schlick_fresnel cos_theta eta
          let r_out_perp := (ray.direction + norm * cos_theta) * eta
          let disc := 1 - r_out_perp.length_squared
          let ref_dir := reflect_dir ray.direction norm
          let reflect_col := env.recur
            ⟨hit.intersection_point + norm * epsilon, ref_dir, ray.time⟩ (depth + 1)
          if disc ≥ 0 then
            let r_out_para := norm * (-(env.sq (Max.max 0 disc)))
            let refract_col := env.recur
              ⟨hit.intersection_point - norm * epsilon, r_out_perp + r_out_para, ray.time⟩
              (depth + 1)
            let combined := reflect_col * fresnel + refract_col * (1 - fresnel)
            if hit.material.transparency ≥ 99 / 100 then Sum.inl combined
            else Sum.inr (color1 * (1 - hit.material.transparency)
              + combined * hit.material.transparency)
          else
            Sum.inr (color1 * (1 - hit.material.transparency)
              + reflect_col * hit.material.transparency)
        else Sum.inr color1
      match res with
      | Sum.inl c => (c, 1)
      | Sum.inr c =>
        (c + hit.material.emission_color * hit.material.emission_strength, 1)

/-! Specification-side reading of the hit shading of trace, used to state the
claims about its return value.  These definitions follow the spec sentence
"on hit, compute local shading, then conditionally recurse for reflection
and/or refraction, then add emission, and return the sum", assembled from the
same oracle environment. -/

/-- Local shading term: zero for a pure-glass material (transparency at or
above the configured threshold), otherwise the shade oracle at the view
direction. -/
def localColor (env : TraceEnv) (ray : Ray) (hit : HitRecord) : Vec3 :=
  if hit.material.transparency ≥ env.cfg.pure_glass_threshold then ⟨0, 0, 0⟩
  else env.shade hit (-ray.direction)

/-- Ideal mirror reflection ray spawned at a hit: origin offset along the
geometric normal by the self-intersection epsilon, direction mirrored about
the (possibly normal-mapped) shading normal. -/
def mirrorRay (env : TraceEnv) (ray : Ray) (hit : HitRecord) : Ray :=
  ⟨hit.intersection_point + hit.normal * rayEpsilon env hit,
   reflect_dir ray.direction (env.normal_map hit), ray.time⟩

/-- Reflection tint: the diffuse color, modulated by the sampled texture when
the material carries one. -/
def reflectionTint (env : TraceEnv) (hit : HitRecord) : Vec3 :=
  match (if hit.material.has_texture then env.tex hit else none) with
  | some tex => tex * hit.material.diffuse_color
  | none => hit.material.diffuse_color

/-- Reflected radiance gathered at a hit: a single mirror ray in the
near-mirror or non-branching cases, otherwise the average of the glossy
importance samples; tinted by the textured diffuse color for metals. -/
def reflectionRadiance (env : TraceEnv) (ray : Ray) (depth : ℕ)
    (hit : HitRecord) : Vec3 :=
  let r := reflect_dir ray.direction (env.normal_map hit)
  let epsilon := rayEpsilon env hit
  let samples : ℕ :=
    if 1 < env.cfg.glossy_samples ∧ hit.material.glossiness < 94 / 100
        ∧ depth < 2 then
      env.cfg.glossy_samples
    else 1
  let accum :=
    if samples = 1 ∨ hit.material.glossiness > 94 / 100 then
      env.recur (mirrorRay env ray hit) (depth + 1)
    else
      let w := r
      let u := (Vec3.cross
        (if |w.x| > 1 / 10 then (⟨0, 1, 0⟩ : Vec3) else ⟨1, 0, 0⟩) w).norm env.sq
      let v := w.cross u
      let total := (List.range samples).foldl
        (fun (acc : Vec3) i =>
          let local_dir := env.localDir i
          let sample_dir :=
            (u * local_dir.x + v * local_dir.y + w * local_dir.z).norm env.sq
          let sample_dir := if sample_dir.dot hit.normal < 0 then r else sample_dir
          acc + env.recur
            ⟨hit.intersection_point + hit.normal * epsilon, sample_dir, ray.time⟩
            (depth + 1))
        ⟨0, 0, 0⟩
      total / (samples : ℚ)
  if hit.material.reflectivity > 1 / 2 ∧ hit.material.transparency < 1 / 10 then
    accum * reflectionTint env hit
  else accum

/-- Local color blended with the reflected radiance by the reflectivity. -/
def afterReflection (env : TraceEnv) (ray : Ray) (depth : ℕ)
    (hit : HitRecord) : Vec3 :=
  if hit.material.reflectivity > 0 then
    localColor env ray hit * (1 - hit.material.reflectivity)
      + reflectionRadiance env ray depth hit * hit.material.reflectivity
  else localColor env ray hit

/-- Relative index ratio at a hit: entering uses 1/n, exiting uses n. -/
def etaRatio (hit : HitRecord) : ℚ :=
  if hit.front_face then 1 / hit.material.refractive_index
  else hit.material.refractive_index

/-- Refraction discriminant 1 - |r_out_perp|² of the Snell construction; a
negative value is total internal reflection. -/
def refractionDisc (ray : Ray) (hit : HitRecord) : ℚ :=
  let cos_theta := |ray.direction.dot hit.normal|
  1 - ((ray.direction + hit.normal * cos_theta) * etaRatio hit).length_squared

/-- Radiance of the Fresnel reflection ray of the refraction branch. -/
def fresnelReflectCol (env : TraceEnv) (ray : Ray) (depth : ℕ)
    (hit : HitRecord) : Vec3 :=
  env.recur
    ⟨hit.intersection_point + hit.normal * rayEpsilon env hit,
     reflect_dir ray.direction hit.normal, ray.time⟩ (depth + 1)

/-- Radiance of the transmitted ray of the refraction branch. -/
def refractCol (env : TraceEnv) (ray : Ray) (depth : ℕ) (hit : HitRecord) : Vec3 :=
  let cos_theta := |ray.direction.dot hit.normal|
  let r_out_perp := (ray.direction + hit.normal * cos_theta) * etaRatio hit
  let r_out_para :=
    hit.normal * (-(env.sq (Max.max 0 (refractionDisc ray hit))))
  env.recur
    ⟨hit.intersection_point - hit.normal * rayEpsilon env hit,
     r_out_perp + r_out_para, ray.time⟩ (depth + 1)

/-- Fresnel-weighted blend of the reflected and transmitted radiance. -/
def fresnelCombined (env : TraceEnv) (ray : Ray) (depth : ℕ)
    (hit : HitRecord) : Vec3 :=
  let fresnel := schlick_fresnel (|ray.direction.dot hit.normal|) (etaRatio hit)
  fresnelReflectCol env ray depth hit * fresnel
    + refractCol env ray depth hit * (1 - fresnel)

/-- Combined local/reflected/refracted color of a hit, before emission: the
reflection blend, further blended with the refraction result (the Fresnel
blend when refraction is possible, the Fresnel reflection alone on total
internal reflection) by the transparency. -/
def combinedColor (env : TraceEnv) (ray : Ray) (depth : ℕ)
    (hit : HitRecord) : Vec3 :=
  let c1 := afterReflection env ray depth hit
  if hit.material.transparency > 0 then
    if refractionDisc ray hit ≥ 0 then
      c1 * (1 - hit.material.transparency)
        + fresnelCombined env ray depth hit * hit.material.transparency
    else
      c1 * (1 - hit.material.transparency)
        + fresnelReflectCol env ray depth hit * hit.material.transparency
  else c1

/-- Exception path of the amended emission claim: transparency at least 0.99
(the hard-coded literal of the early return, not the configured threshold)
with refraction possible. -/
def pureGlassRefracts (ray : Ray) (hit : HitRecord) : Prop :=
  hit.material.transparency ≥ 99 / 100 ∧ refractionDisc ray hit ≥ 0

instance (ray : Ray) (hit : HitRecord) : Decidable (pureGlassRefracts ray hit) := by
  unfold pureGlassRefracts; infer_instance

/-! TRS decomposition kernel, Transform.h / part of the Math sources:
Quaternion and the Mat4 extract/compose/interpolate family.  SLERP calls
std::sin, std::cos and std::acos; those are carried in the MathOracles
bundle together with the square root. -/

/-- Quaternion of Quaternion.h (w + xi + yj + zk). -/
structure Quaternion where
  w : ℚ
  x : ℚ
  y : ℚ
  z : ℚ
  deriving DecidableEq, Repr

/-- Oracle bundle for std::sqrt, std::sin, std::cos, std::acos. -/
structure MathOracles where
  sq : ℚ → ℚ
  sinF : ℚ → ℚ
  cosF : ℚ → ℚ
  acosF : ℚ → ℚ

namespace Quaternion

/-- Default constructor: the identity rotation. -/
def identity : Quaternion := ⟨1, 0, 0, 0⟩

/-- Quaternion::dot. -/
def dot (a b : Quaternion) : ℚ := a.w * b.w + a.x * b.x + a.y * b.y + a.z * b.z

/-- Quaternion::length. -/
def length (sq : ℚ → ℚ) (a : Quaternion) : ℚ :=
  sq (a.w * a.w + a.x * a.x + a.y * a.y + a.z * a.z)

/-- Quaternion::norm, with the near-zero-length identity fallback. -/
def norm (sq : ℚ → ℚ) (a : Quaternion) : Quaternion :=
  let len := a.length sq
  if len < 1 / 10 ^ 10 then identity
  else ⟨a.w / len, a.x / len, a.y / len, a.z / len⟩

/-- Negation of all four components (the shorter-path flip of slerp). -/
def negQ (a : Quaternion) : Quaternion := ⟨-a.w, -a.x, -a.y, -a.z⟩

/-- Quaternion::slerp. -/
def slerp (mo : MathOracles) (q1 q2 : Quaternion) (t : ℚ) : Quaternion :=
  let start := q1.norm mo.sq
  let e := q2.norm mo.sq
  let dot0 := start.dot e
  let e := if dot0 < 0 then e.negQ else e
  let dot1 := if dot0 < 0 then -dot0 else dot0
  if dot1 > 9995 / 10000 then
    (Quaternion.mk (start.w + (e.w - start.w) * t) (start.x + (e.x - start.x) * t)
      (start.y + (e.y - start.y) * t) (start.z + (e.z - start.z) * t)).norm mo.sq
  else
    let dot2 := if dot1 > 1 then 1 else if dot1 < -1 then -1 else dot1
    let theta_0 := mo.acosF dot2
    let theta := theta_0 * t
    let sin_theta := mo.sinF theta
    let sin_theta_0 := mo.sinF theta_0
    let s0 := mo.cosF theta - dot2 * sin_theta / sin_theta_0
    let s1 := sin_theta / sin_theta_0
    ⟨s0 * start.w + s1 * e.w, s0 * start.x + s1 * e.x,
     s0 * start.y + s1 * e.y, s0 * start.z + s1 * e.z⟩

end Quaternion

/-- Rotation submatrix written by Quaternion::to_matrix. -/
structure Mat3 where
  a00 : ℚ
  a01 : ℚ
  a02 : ℚ
  a10 : ℚ
  a11 : ℚ
  a12 : ℚ
  a20 : ℚ
  a21 : ℚ
  a22 : ℚ
  deriving DecidableEq, Repr

/-- Quaternion::to_matrix. -/
def Quaternion.to_matrix (q : Quaternion) : Mat3 :=
  let xx := q.x * q.x
  let yy := q.y * q.y
  let zz := q.z * q.z
  let xy := q.x * q.y
  let xz := q.x * q.z
  let yz := q.y * q.z
  let wx := q.w * q.x
  let wy := q.w * q.y
  let wz := q.w * q.z
  ⟨1 - 2 * (yy + zz), 2 * (xy - wz), 2 * (xz + wy),
   2 * (xy + wz), 1 - 2 * (xx + zz), 2 * (yz - wx),
   2 * (xz - wy), 2 * (yz + wx), 1 - 2 * (xx + yy)⟩

namespace Mat4

/-- Mat4::extract_translation. -/
def extract_translation (a : Mat4) : Vec3 := ⟨a.m03, a.m13, a.m23⟩

/-- Mat4::extract_scale: the lengths of the three basis columns. -/
def extract_scale (sq : ℚ → ℚ) (a : Mat4) : Vec3 :=
  ⟨(Vec3.mk a.m00 a.m10 a.m20).length sq,
   (Vec3.mk a.m01 a.m11 a.m21).length sq,
   (Vec3.mk a.m02 a.m12 a.m22).length sq⟩

/-- Mat4::extract_rotation: the identity fallback below the 1e-10 scale
threshold, then Shepperd's method on the scale-normalized 3x3 block. -/
def extract_rotation (sq : ℚ → ℚ) (a : Mat4) : Quaternion :=
  let scale := a.extract_scale sq
  if scale.x < 1 / 10 ^ 10 ∨ scale.y < 1 / 10 ^ 10 ∨ scale.z < 1 / 10 ^ 10 then
    Quaternion.identity
  else
    let r00 := a.m00 / scale.x
    let r01 := a.m01 / scale.y
    let r02 := a.m02 / scale.z
    let r10 := a.m10 / scale.x
    let r11 := a.m11 / scale.y
    let r12 := a.m12 / scale.z
    let r20 := a.m20 / scale.x
    let r21 := a.m21 / scale.y
    let r22 := a.m22 / scale.z
    let trace := r00 + r11 + r22
    if trace > 0 then
      let s := sq (trace + 1) * 2
      ⟨(1/4) * s, (r21 - r12) / s, (r02 - r20) / s, (r10 - r01) / s⟩
    else if r00 > r11 ∧ r00 > r22 then
      let s := sq (1 + r00 - r11 - r22) * 2
      ⟨(r21 - r12) / s, (1/4) * s, (r01 + r10) / s, (r02 + r20) / s⟩
    else if r11 > r22 then
      let s := sq (1 + r11 - r00 - r22) * 2
      ⟨(r02 - r20) / s, (r01 + r10) / s, (1/4) * s, (r12 + r21) / s⟩
    else
      let s := sq (1 + r22 - r00 - r11) * 2
      ⟨(r10 - r01) / s, (r02 + r20) / s, (r12 + r21) / s, (1/4) * s⟩

/-- Mat4::compose: rotation columns scaled by the scale components, the
translation in the last column, affine bottom row. -/
def compose (translation : Vec3) (rotation : Quaternion) (scale : Vec3) : Mat4 :=
  let rot := rotation.to_matrix
  ⟨rot.a00 * scale.x, rot.a01 * scale.y, rot.a02 * scale.z, translation.x,
   rot.a10 * scale.x, rot.a11 * scale.y, rot.a12 * scale.z, translation.y,
   rot.a20 * scale.x, rot.a21 * scale.y, rot.a22 * scale.z, translation.z,
   0, 0, 0, 1⟩

/-- Mat4::interpolate: TRS-decompose both keyframes, lerp translation and
scale, slerp rotation, recompose. -/
def interpolate (mo : MathOracles) (start finish : Mat4) (t : ℚ) : Mat4 :=
  let start_t := start.extract_translation
  let start_s := start.extract_scale mo.sq
  let start_r := start.extract_rotation mo.sq
  let end_t := finish.extract_translation
  let end_s := finish.extract_scale mo.sq
  let end_r := finish.extract_rotation mo.sq
  let curr_t := start_t + (end_t - start_t) * t
  let curr_s := start_s + (end_s - start_s) * t
  let curr_r := Quaternion.slerp mo start_r end_r t
  compose curr_t curr_r curr_s

/-- Homogeneous 4x4 rotation matrix of a quaternion (every rotation matrix
in the claim's sense arises this way from a unit quaternion). -/
def fromQuat (q : Quaternion) : Mat4 :=
  let rot := q.to_matrix
  ⟨rot.a00, rot.a01, rot.a02, 0,
   rot.a10, rot.a11, rot.a12, 0,
   rot.a20, rot.a21, rot.a22, 0,
   0, 0, 0, 1⟩

end Mat4

/-- Affine matrix built as translation * rotation * scale, the shape of
matrix the TRS round-trip claim quantifies over. -/
def trsQ (t : Vec3) (q : Quaternion) (s : Vec3) : Mat4 :=
  (Mat4.translate t).mul ((Mat4.fromQuat q).mul (Mat4.scaleM s.x s.y s.z))

/-- Unit quaternion predicate (squared length one); every rotation matrix is
Quaternion.to_matrix of such a quaternion. -/
def Quaternion.unit (q : Quaternion) : Prop :=
  q.w * q.w + q.x * q.x + q.y * q.y + q.z * q.z = 1

instance (q : Quaternion) : Decidable q.unit := by
  unfold Quaternion.unit; infer_instance

/-! Concrete data used by witnesses and counterexamples. -/

/-- Witness sine oracle: consistent with sin 0 = 0 and with acosW/cosW. -/
def sinW (x : ℚ) : ℚ := if x = 0 then 0 else 1

/-- Witness cosine oracle: cos 0 = 1 and cosW (acosW a) = a away from 0. -/
def cosW (x : ℚ) : ℚ := if x = 0 then 1 else x - 10

/-- Witness arc-cosine oracle, shifted away from 0 so that sinW never
vanishes on its range. -/
def acosW (x : ℚ) : ℚ := x + 10

/-- Witness oracle bundle: exact rational square root plus the trig stand-ins
above. -/
def ratOracles : MathOracles := ⟨ratSqrt, sinW, cosW, acosW⟩

/-- Axis-aligned unit square in the z = 0 plane, identity transform:
the plane of the BVH-equivalence failing input. -/
def planeC1 : Plane :=
  ⟨Material.default, true, false, Transform.identity,
   [⟨0, 0, 0⟩, ⟨1, 0, 0⟩, ⟨1, 1, 0⟩, ⟨0, 1, 0⟩]⟩

/-- Scene containing only planeC1. -/
def sceneC1 : Scene := ⟨[], [], [planeC1], [], [], []⟩

/-- Ray hitting planeC1 at t = 1 (all direction components nonzero, so the
slab arithmetic involves no division by zero). -/
def rayC1 : Ray := ⟨⟨1/2, 1/2, 1⟩, ⟨1/8, 1/8, -1⟩, 1/2⟩

/-- Hit record intersect_plane produces for rayC1 on planeC1. -/
def hitC1 : HitRecord := ⟨⟨5/8, 5/8, 0⟩, ⟨0, 0, 1⟩, 1, true, Material.default⟩

/-- Plane with only two boundary points (malformed scene data). -/
def planeTwoPts : Plane :=
  ⟨Material.default, true, false, Transform.identity, [⟨0, 0, 0⟩, ⟨1, 0, 0⟩]⟩

/-- Unit sphere with the identity transform and no motion. -/
def sphereUnit : Sphere := ⟨Material.default, true, false, Transform.identity, ⟨0, 0, 0⟩⟩

/-- Trivial motion oracle for static shapes. -/
def motionId : ℚ → Transform := fun _ => Transform.identity

/-- Ray of the head-on sphere scenario: origin (0,0,5), direction (0,0,-1). -/
def rayC6 : Ray := ⟨⟨0, 0, 5⟩, ⟨0, 0, -1⟩, 0⟩

/-- Render configuration for the trace witnesses: depth limit 12, fixed
epsilon, no glossy branching, pure-glass threshold 0.99 (the config
defaults that matter to the claims). -/
def cfgW : RenderConfig := ⟨12, 1/1000, false, 1/10000, 0, 99/100⟩

/-- Pure-glass emissive material: transparency 1, refractive index 3/2,
emission (1,1,1) with strength 5. -/
def matC3 : Material :=
  { Material.default with
    transparency := 1
    refractive_index := 3/2
    emission_color := ⟨1, 1, 1⟩
    emission_strength := 5 }

/-- Head-on hit record carrying matC3. -/
def hitC3 : HitRecord := ⟨⟨0, 0, 0⟩, ⟨0, 0, 1⟩, 1, true, matC3⟩

/-- Head-on ray of the trace counterexamples. -/
def rayC3 : Ray := ⟨⟨0, 0, 1⟩, ⟨0, 0, -1⟩, 1/2⟩

/-- Trace environment whose every radiance source (shading, recursion,
background) is zero and whose query always reports hitC3. -/
def envC3 : TraceEnv :=
  ⟨cfgW, ratSqrt, fun _ => some hitC3, fun _ _ => ⟨0, 0, 0⟩, fun h => h.normal,
   fun _ => none, fun _ => ⟨0, 0, 1⟩, fun _ _ => ⟨0, 0, 0⟩, ⟨0, 0, 0⟩⟩

/-- Perfect-mirror material with a gray diffuse color: reflectivity 1,
transparency 0, glossiness 1. -/
def matC4 : Material :=
  { Material.default with
    reflectivity := 1
    transparency := 0
    glossiness := 1
    diffuse_color := ⟨1/2, 1/2, 1/2⟩ }

/-- Head-on hit record carrying matC4. -/
def hitC4 : HitRecord := ⟨⟨0, 0, 0⟩, ⟨0, 0, 1⟩, 1, true, matC4⟩

/-- Trace environment in which every recursive trace call returns the
radiance (1,1,1); its query always reports hitC4. -/
def envC4 : TraceEnv :=
  ⟨cfgW, ratSqrt, fun _ => some hitC4, fun _ _ => ⟨0, 0, 0⟩, fun h => h.normal,
   fun _ => none, fun _ => ⟨0, 0, 1⟩, fun _ _ => ⟨1, 1, 1⟩, ⟨0, 0, 0⟩⟩

/-- Unit quaternion of the x-axis rotation used by the TRS counterexample. -/
def qC10 : Quaternion := ⟨3/5, 4/5, 0, 0⟩

/-- TRS matrix with a genuine rotation and strictly positive scale 1e-11 in
every component (below the 1e-10 decomposition threshold). -/
def MC10 : Mat4 := trsQ ⟨0, 0, 0⟩ qC10 ⟨1/10^11, 1/10^11, 1/10^11⟩

/-- Object-space ray of a sphere query (the solver's step before the
quadratic). -/
def sphereObjectRay (motion : ℚ → Transform) (sphere : Sphere) (ray : Ray) : Ray :=
  (effectiveTransform motion sphere.has_motion sphere.cached_transform
    ray.time).world_to_object_ray ray

/-- Leading coefficient a of the unit-sphere quadratic. -/
def sphereA (motion : ℚ → Transform) (sphere : Sphere) (ray : Ray) : ℚ :=
  (sphereObjectRay motion sphere ray).direction.length_squared

/-- Half coefficient b of the unit-sphere quadratic. -/
def sphereHalfB (motion : ℚ → Transform) (sphere : Sphere) (ray : Ray) : ℚ :=
  (sphereObjectRay motion sphere ray).origin.dot
    (sphereObjectRay motion sphere ray).direction

/-- Constant coefficient c of the unit-sphere quadratic. -/
def sphereCcoef (motion : ℚ → Transform) (sphere : Sphere) (ray : Ray) : ℚ :=
  (sphereObjectRay motion sphere ray).origin.length_squared - 1

/-- Discriminant of the unit-sphere quadratic. -/
def sphereDisc (motion : ℚ → Transform) (sphere : Sphere) (ray : Ray) : ℚ :=
  sphereHalfB motion sphere ray * sphereHalfB motion sphere ray
    - sphereA motion sphere ray * sphereCcoef motion sphere ray

/-- Near quadratic root (-b - √disc)/a of a sphere query. -/
def sphereNear (sq : ℚ → ℚ) (motion : ℚ → Transform) (sphere : Sphere)
    (ray : Ray) : ℚ :=
  (-sphereHalfB motion sphere ray - sq (sphereDisc motion sphere ray))
    / sphereA motion sphere ray

/-- Far quadratic root (-b + √disc)/a of a sphere query. -/
def sphereFar (sq : ℚ → ℚ) (motion : ℚ → Transform) (sphere : Sphere)
    (ray : Ray) : ℚ :=
  (-sphereHalfB motion sphere ray + sq (sphereDisc motion sphere ray))
    / sphereA motion sphere ray

/-! Theorems.  The first few state the componentwise meaning of the Vec3
operator instances (all definitional). -/

theorem Vec3.add_def (a b : Vec3) : a + b = ⟨a.x + b.x, a.y + b.y, a.z + b.z⟩ := rfl

theorem Vec3.sub_def (a b : Vec3) : a - b = ⟨a.x - b.x, a.y - b.y, a.z - b.z⟩ := rfl

theorem Vec3.neg_def (a : Vec3) : -a = ⟨-a.x, -a.y, -a.z⟩ := rfl

theorem Vec3.hadamard_def (a b : Vec3) :
    a * b = ⟨a.x * b.x, a.y * b.y, a.z * b.z⟩ := rfl

theorem Vec3.smul_def (a : Vec3) (c : ℚ) : a * c = ⟨a.x * c, a.y * c, a.z * c⟩ := rfl

theorem Vec3.div_def (a : Vec3) (c : ℚ) : a / c = ⟨a.x / c, a.y / c, a.z / c⟩ := rfl

/-- C8: a plane whose boundary-point list has fewer than 3 points reports no
intersection, for every ray, every interval and every square-root oracle;
in the Option embedding, returning none is exactly leaving the caller's
HitRecord untouched, and totality of the definition is the no-crash part. -/
theorem intersect_plane_degenerate_none :
    ∀ (sq : ℚ → ℚ) (plane : Plane) (ray : Ray) (t_min t_max : ℚ),
    plane.points.length < 3 →
    intersect_plane sq plane ray t_min t_max = none := by
  intro sq plane ray t_min t_max h
  rcases hp : plane.points with _ | ⟨a, _ | ⟨b, _ | ⟨c, rest⟩⟩⟩
  · simp [intersect_plane, hp]
  · simp [intersect_plane, hp]
  · simp [intersect_plane, hp]
  · rw [hp] at h; simp at h; omega

/-- Witness for C8: the two-point plane yields no hit on a concrete ray. -/
theorem intersect_plane_degenerate_none_witness :
    intersect_plane ratSqrt planeTwoPts rayC1 0 100 = none :=
  intersect_plane_degenerate_none ratSqrt planeTwoPts rayC1 0 100 (by decide)

/-- C9: whenever any component of the extracted scale is below the 1e-10
singularity threshold, Mat4::extract_rotation returns the identity
quaternion (the fallback that replaces the would-be division by a near-zero
scale). -/
theorem extract_rotation_degenerate_identity :
    ∀ (sq : ℚ → ℚ) (a : Mat4),
    ((a.extract_scale sq).x < 1/10^10 ∨ (a.extract_scale sq).y < 1/10^10
      ∨ (a.extract_scale sq).z < 1/10^10) →
    a.extract_rotation sq = Quaternion.identity := by
  intro sq a h
  simp only [Mat4.extract_rotation]
  rw [if_pos h]

/-- Exactness of the witness square root on squares of nonnegative
rationals. -/
theorem ratSqrt_mul_self (a : ℚ) (ha : 0 ≤ a) : ratSqrt (a * a) = a := by
  unfold ratSqrt
  rw [Rat.sqrt_eq, abs_of_nonneg ha]

/-- First extracted scale component of MC10, computed through the exactness
lemma rather than by kernel evaluation of the integer square root. -/
theorem MC10_scale_x : (MC10.extract_scale ratSqrt).x = 1/10^11 := by
  have h : (MC10.extract_scale ratSqrt).x
      = ratSqrt ((1/10^11 : ℚ) * (1/10^11)) := by
    simp only [MC10, trsQ, qC10, Mat4.mul, Mat4.translate, Mat4.fromQuat,
      Mat4.scaleM, Quaternion.to_matrix, Mat4.extract_scale, Vec3.length,
      Vec3.length_squared]
    norm_num
  rw [h, ratSqrt_mul_self _ (by norm_num)]

/-- Witness for C9: the TRS matrix with 1e-11 scale decomposes to the
identity rotation. -/
theorem extract_rotation_degenerate_identity_witness :
    MC10.extract_rotation ratSqrt = Quaternion.identity := by
  apply extract_rotation_degenerate_identity
  left
  rw [MC10_scale_x]
  norm_num

/-- C2: trace called at depth equal to the configured maximum returns the
zero color and performs no intersection query (the counter is 0); the result
is this constant for every environment, in particular for every recursion
oracle, so no recursive evaluation can contribute. -/
theorem trace_depth_guard :
    ∀ (env : TraceEnv) (ray : Ray),
    trace env ray env.cfg.max_ray_depth = (⟨0, 0, 0⟩, 0) := by
  intro env ray
  unfold trace
  rw [if_pos (le_refl _)]

/-- C5 (amended to the closed interval the code implements): after the
3-iteration Newton refinement, intersect_torus reports the hit with the last
refined parameter whenever that parameter lies in the closed scaled interval
[t_min·dir_length, t_max·dir_length] — also when the iteration budget ran
out without meeting any tolerance — and discards the hit exactly when the
refined parameter leaves that closed interval. -/
theorem torus_refine_accept_closed_interval :
    ∀ (R_sq r_tube_sq four_R_sq : ℚ) (o d : Vec3)
      (dir_length t_min t_max current_t : ℚ),
    (t_min * dir_length ≤ newtonRefine R_sq r_tube_sq four_R_sq o d 3 current_t
        ∧ newtonRefine R_sq r_tube_sq four_R_sq o d 3 current_t ≤ t_max * dir_length →
      torusRefineAccept R_sq r_tube_sq four_R_sq o d dir_length t_min t_max current_t
        = some (newtonRefine R_sq r_tube_sq four_R_sq o d 3 current_t))
    ∧ (¬ (t_min * dir_length ≤ newtonRefine R_sq r_tube_sq four_R_sq o d 3 current_t
        ∧ newtonRefine R_sq r_tube_sq four_R_sq o d 3 current_t ≤ t_max * dir_length) →
      torusRefineAccept R_sq r_tube_sq four_R_sq o d dir_length t_min t_max current_t
        = none) := by
  intro R_sq r_tube_sq four_R_sq o d dir_length t_min t_max current_t
  constructor
  · intro h
    unfold torusRefineAccept
    rw [if_neg]
    push_neg
    exact ⟨h.1, h.2⟩
  · intro h
    unfold torusRefineAccept
    rw [if_pos]
    rcases not_and_or.mp h with h1 | h2
    · exact Or.inl (lt_of_not_le h1)
    · exact Or.inr (lt_of_not_le h2)

/-- Witness for C5: a root already on the torus surface (the Newton loop
exits by the |F| tolerance immediately) inside the interval is accepted. -/
theorem torus_refine_accept_closed_interval_witness :
    torusRefineAccept 4 (1/4) 16 ⟨5, 0, 0⟩ ⟨-1, 0, 0⟩ 1 0 10 (5/2)
      = some (newtonRefine 4 (1/4) 16 ⟨5, 0, 0⟩ ⟨-1, 0, 0⟩ 3 (5/2)) :=
  (torus_refine_accept_closed_interval 4 (1/4) 16 ⟨5, 0, 0⟩ ⟨-1, 0, 0⟩ 1 0 10 (5/2)).1
    (by constructor <;> with_unfolding_all decide)

set_option maxRecDepth 3000 in
/-- Counterexample for C5 as stated with the half-open interval: for the
torus R² = 4, r² = 1/4, object ray from (5,0,0) along (-1,0,0) (unit length,
dir_length = 1), initial root 23/10, the three Newton iterations all run
(no tolerance is met) and produce a refined parameter T ≈ 2.4999932 with
23/10 < T.  Taking t_min = 0 and t_max = T puts T outside the half-open
interval [t_min·1, t_max·1), since ¬ T < T·1, yet the code accepts and
reports the hit at T instead of returning false. -/
theorem torus_accept_at_open_interval_boundary :
    torusRefineAccept 4 (1/4) 16 ⟨5, 0, 0⟩ ⟨-1, 0, 0⟩ 1 0
        (newtonRefine 4 (1/4) 16 ⟨5, 0, 0⟩ ⟨-1, 0, 0⟩ 3 (23/10)) (23/10)
      = some (newtonRefine 4 (1/4) 16 ⟨5, 0, 0⟩ ⟨-1, 0, 0⟩ 3 (23/10))
    ∧ 23/10 < newtonRefine 4 (1/4) 16 ⟨5, 0, 0⟩ ⟨-1, 0, 0⟩ 3 (23/10)
    ∧ ¬ (newtonRefine 4 (1/4) 16 ⟨5, 0, 0⟩ ⟨-1, 0, 0⟩ 3 (23/10)
          < newtonRefine 4 (1/4) 16 ⟨5, 0, 0⟩ ⟨-1, 0, 0⟩ 3 (23/10) * 1) := by
  have h1 : (0 : ℚ) * 1 ≤ newtonRefine 4 (1/4) 16 ⟨5, 0, 0⟩ ⟨-1, 0, 0⟩ 3 (23/10) := by
    with_unfolding_all decide
  have h2 : newtonRefine 4 (1/4) 16 ⟨5, 0, 0⟩ ⟨-1, 0, 0⟩ 3 (23/10)
      ≤ newtonRefine 4 (1/4) 16 ⟨5, 0, 0⟩ ⟨-1, 0, 0⟩ 3 (23/10) * 1 := by simp
  refine ⟨?_, by with_unfolding_all decide, by simp⟩
  unfold torusRefineAccept
  rw [if_neg (not_or.mpr ⟨not_lt.mpr h1, not_lt.mpr h2⟩)]

/-- Identity matrix leaves points unchanged (w stays 1, no divide). -/
theorem transform_point_id (p : Vec3) : Mat4.identity.transform_point p = p := by
  cases p with
  | mk px py pz => simp [Mat4.transform_point, Mat4.identity]

/-- Identity transform leaves the (already min/max ordered) object box of
planeC1 unchanged. -/
theorem transform_bbox_id_C1 :
    Transform.identity.transform_bbox ⟨⟨0, 0, 0⟩, ⟨1, 1, 0⟩⟩
      = ⟨⟨0, 0, 0⟩, ⟨1, 1, 0⟩⟩ := by
  simp only [Transform.transform_bbox, Transform.identity, transform_point_id,
    List.foldl]
  norm_num [min_def, max_def]

/-- Bounding box of the single-plane scene: flat in z. -/
theorem cbb_C1 : ∀ go : GeomOracles,
    compute_bounding_box_for_objects go [0] sceneC1 = ⟨⟨0, 0, 0⟩, ⟨1, 1, 0⟩⟩ := by
  intro go
  simp only [compute_bounding_box_for_objects, List.foldl, objBBox, sceneC1,
    List.length_nil, List.length_cons, get_plane_bounding_box, planeC1]
  norm_num [List.getD, min_def, max_def, transform_bbox_id_C1]

/-- The BVH of the single-plane scene is one leaf holding index 0 with the
flat box. -/
theorem build_bvh_C1 : ∀ go : GeomOracles,
    build_bvh go [0] sceneC1 0 = BVHNode.leaf ⟨⟨0, 0, 0⟩, ⟨1, 1, 0⟩⟩ [0] := by
  intro go
  show buildBVHAux go sceneC1 (MAX_DEPTH - 0) [0] = _
  rw [show MAX_DEPTH - 0 = 29 + 1 from rfl]
  rw [buildBVHAux]
  simp [MAX_LEAF_SIZE, cbb_C1 go]

/-- The flat box rejects rayC1: the z slab degenerates the running interval
to the single point t = 1 and the strict test t_max ≤ t_min fires. -/
theorem flat_box_rejects_rayC1 :
    BoundingBox.intersect ⟨⟨0, 0, 0⟩, ⟨1, 1, 0⟩⟩ rayC1 0 100 = false := by
  with_unfolding_all decide

set_option maxHeartbeats 1000000 in
/-- C1: the failing input of BVH-vs-brute-force equivalence.  For the scene
holding only the unit square in the z = 0 plane and the ray rayC1, brute
force (intersect_obj on every index) finds the hit at t = 1, while
BVH traversal from the root built by build_bvh reports a miss: the leaf's
bounding box is flat in z, so the slab test's running interval degenerates
to the single point t = 1 and the test t_max ≤ t_min rejects the ray before
intersect_plane is ever consulted.  The equality holds for every oracle
bundle go (the scene contains none of the oracled shape kinds). -/
theorem bvh_flat_leaf_divergence :
    ∀ go : GeomOracles,
    bruteForceIntersect go ratSqrt rayC1 sceneC1 0 100 = (true, some hitC1, 1)
    ∧ intersect_bvh go ratSqrt rayC1 sceneC1 (build_bvh go [0] sceneC1 0) none 0 100
        = (false, none, 100) := by
  intro go
  constructor
  · with_unfolding_all rfl
  · rw [build_bvh_C1 go, intersect_bvh]
    simp [BVHNode.nodeBox, flat_box_rejects_rayC1]

/-- Selection arithmetic shared by the quadratic solvers: try-near-then-far
with the code's rejection tests equals picking the first root inside the
closed interval. -/
theorem selection_aux (t_min t_max near far : ℚ) (hitn hitf : HitRecord) :
    (if near < t_min ∨ near > t_max then
      (if far < t_min ∨ far > t_max then (none : Option HitRecord) else some hitf)
    else some hitn)
    = (if t_min ≤ near ∧ near ≤ t_max then some hitn
      else if t_min ≤ far ∧ far ≤ t_max then some hitf else none) := by
  by_cases hn : t_min ≤ near ∧ near ≤ t_max
  · rw [if_neg (not_or.mpr ⟨not_lt.mpr hn.1, not_lt.mpr hn.2⟩), if_pos hn]
  · have h1 : near < t_min ∨ near > t_max := by
      rcases not_and_or.mp hn with h | h
      · exact Or.inl (lt_of_not_le h)
      · exact Or.inr (lt_of_not_le h)
    rw [if_pos h1, if_neg hn]
    by_cases hf : t_min ≤ far ∧ far ≤ t_max
    · rw [if_neg (not_or.mpr ⟨not_lt.mpr hf.1, not_lt.mpr hf.2⟩), if_pos hf]
    · have h2 : far < t_min ∨ far > t_max := by
        rcases not_and_or.mp hf with h | h
        · exact Or.inl (lt_of_not_le h)
        · exact Or.inr (lt_of_not_le h)
      rw [if_pos h2, if_neg hf]

/-- C7 (amended to the closed interval the code implements): for every ray
and sphere, a negative discriminant reports no hit; otherwise the root used
is the near root when it lies in [t_min, t_max], else the far root when that
one does, else no hit — with near ≤ far (given a nonnegative square root and
a positive leading coefficient), this is the smallest root inside the closed
interval. -/
theorem intersect_sphere_root_selection :
    ∀ (sq : ℚ → ℚ) (motion : ℚ → Transform) (sphere : Sphere) (ray : Ray)
      (t_min t_max : ℚ),
    (sphereDisc motion sphere ray < 0 →
      intersect_sphere sq motion sphere ray t_min t_max = none)
    ∧ (0 ≤ sphereDisc motion sphere ray →
       0 ≤ sq (sphereDisc motion sphere ray) →
       0 < sphereA motion sphere ray →
        sphereNear sq motion sphere ray ≤ sphereFar sq motion sphere ray
        ∧ intersect_sphere sq motion sphere ray t_min t_max =
          (if t_min ≤ sphereNear sq motion sphere ray
              ∧ sphereNear sq motion sphere ray ≤ t_max then
            some (sphereHitFromRoot sq sphere
              (effectiveTransform motion sphere.has_motion sphere.cached_transform
                ray.time)
              ray (sphereObjectRay motion sphere ray)
              (sphereNear sq motion sphere ray))
          else if t_min ≤ sphereFar sq motion sphere ray
              ∧ sphereFar sq motion sphere ray ≤ t_max then
            some (sphereHitFromRoot sq sphere
              (effectiveTransform motion sphere.has_motion sphere.cached_transform
                ray.time)
              ray (sphereObjectRay motion sphere ray)
              (sphereFar sq motion sphere ray))
          else none)) := by
  intro sq motion sphere ray t_min t_max
  constructor
  · intro hneg
    simp only [sphereDisc, sphereHalfB, sphereA, sphereCcoef, sphereObjectRay]
      at hneg
    simp only [intersect_sphere]
    rw [if_pos hneg]
  · intro hd hsq ha
    constructor
    · simp only [sphereNear, sphereFar]
      rw [div_le_div_iff_of_pos_right ha]
      linarith
    · have hd' := hd
      simp only [sphereDisc, sphereHalfB, sphereA, sphereCcoef, sphereObjectRay]
        at hd'
      simp only [intersect_sphere]
      rw [if_neg (not_lt.mpr hd')]
      simp only [sphereNear, sphereFar, sphereDisc, sphereHalfB, sphereA,
        sphereCcoef, sphereObjectRay]
      exact selection_aux t_min t_max _ _ _ _

/-- Witness for C7: the head-on unit-sphere ray with [0, 100] picks the near
root. -/
theorem intersect_sphere_root_selection_witness :
    intersect_sphere ratSqrt motionId sphereUnit rayC6 0 100
      = some (sphereHitFromRoot ratSqrt sphereUnit
          (effectiveTransform motionId sphereUnit.has_motion
            sphereUnit.cached_transform rayC6.time)
          rayC6 (sphereObjectRay motionId sphereUnit rayC6)
          (sphereNear ratSqrt motionId sphereUnit rayC6)) := by
  obtain ⟨hle, heq⟩ :=
    (intersect_sphere_root_selection ratSqrt motionId sphereUnit rayC6 0 100).2
      (by with_unfolding_all decide) (by with_unfolding_all decide)
      (by with_unfolding_all decide)
  rw [heq, if_pos (by constructor <;> with_unfolding_all decide)]

/-- Identity matrix leaves directions unchanged. -/
theorem transform_direction_id (d : Vec3) :
    Mat4.identity.transform_direction d = d := by
  cases d with
  | mk a b c => simp [Mat4.transform_direction, Mat4.identity]

/-- Identity transform leaves rays unchanged. -/
theorem world_to_object_ray_id (r : Ray) :
    Transform.identity.world_to_object_ray r = r := by
  cases r with
  | mk o d t =>
    simp [Transform.world_to_object_ray, Transform.identity, transform_point_id,
      transform_direction_id]

/-- Normalization of the already-unit vector (0,0,1) under an oracle exact
at 1. -/
theorem norm_unit_z (sq : ℚ → ℚ) (hs1 : sq 1 = 1) :
    (Vec3.mk 0 0 1).norm sq = ⟨0, 0, 1⟩ := by
  rw [Vec3.norm, Vec3.length]
  norm_num [Vec3.length_squared]
  rw [hs1, Vec3.div_def]
  norm_num

/-- C6: for the unit sphere with the identity transform and no motion, the
ray from (0,0,5) toward (0,0,-1) with t_min ≤ 4 ≤ t_max hits at t = 4, world
point (0,0,1), normal (0,0,1); the returned normal is a unit vector.  The
square-root oracle is only constrained at the two perfect squares the solver
consults (the discriminant 1 and the squared world offset 16). -/
theorem sphere_headon_scenario :
    ∀ (sq : ℚ → ℚ) (motion : ℚ → Transform) (t_min t_max : ℚ),
    t_min ≤ 4 → 4 ≤ t_max → sq 1 = 1 → sq 16 = 4 →
    intersect_sphere sq motion sphereUnit rayC6 t_min t_max
      = some ⟨⟨0, 0, 1⟩, ⟨0, 0, 1⟩, 4, true, Material.default⟩
    ∧ (Vec3.mk 0 0 1).length_squared = 1 := by
  intro sq motion t_min t_max h1 h2 hs1 hs16
  refine ⟨?_, by norm_num [Vec3.length_squared]⟩
  have hT : effectiveTransform motion sphereUnit.has_motion
      sphereUnit.cached_transform rayC6.time = Transform.identity := by
    simp [sphereUnit, effectiveTransform]
  have hOR : sphereObjectRay motion sphereUnit rayC6 = rayC6 := by
    rw [sphereObjectRay, hT, world_to_object_ray_id]
  have hA : sphereA motion sphereUnit rayC6 = 1 := by
    rw [sphereA, hOR]
    norm_num [rayC6, Vec3.length_squared]
  have hHB : sphereHalfB motion sphereUnit rayC6 = -5 := by
    rw [sphereHalfB, hOR]
    norm_num [rayC6, Vec3.dot]
  have hD : sphereDisc motion sphereUnit rayC6 = 1 := by
    rw [sphereDisc, hHB, hA, sphereCcoef, hOR]
    norm_num [rayC6, Vec3.length_squared]
  have hNear : sphereNear sq motion sphereUnit rayC6 = 4 := by
    rw [sphereNear, hHB, hD, hA, hs1]
    norm_num
  obtain ⟨hle, heq⟩ :=
    (intersect_sphere_root_selection sq motion sphereUnit rayC6 t_min t_max).2
      (by rw [hD]; norm_num) (by rw [hD, hs1]; norm_num) (by rw [hA]; norm_num)
  rw [heq, if_pos ⟨hNear ▸ h1, hNear ▸ h2⟩, hNear, hT, hOR]
  have hpoint : rayC6.origin + rayC6.direction * (4 : ℚ) = ⟨0, 0, 1⟩ := by
    rw [rayC6]
    rw [Vec3.smul_def, Vec3.add_def]
    norm_num
  have hback : Transform.identity.object_to_world_normal sq ⟨0, 0, 1⟩
      = ⟨0, 0, 1⟩ := by
    rw [Transform.object_to_world_normal]
    show (Mat4.identity.transform_normal sq ⟨0, 0, 1⟩).norm sq = _
    rw [Mat4.transform_normal, Mat4.identity]
    norm_num
    rw [norm_unit_z sq hs1, norm_unit_z sq hs1]
  have hproj : Transform.identity.object_to_world = Mat4.identity := rfl
  simp only [sphereHitFromRoot, hpoint, Transform.object_to_world_point, hproj,
    transform_point_id, hback]
  have hoff : (Vec3.mk 0 0 1 - rayC6.origin).length sq = 4 := by
    rw [rayC6, Vec3.sub_def, Vec3.length]
    norm_num [Vec3.length_squared]
    exact hs16
  have hdirlen : (rayC6.direction).length sq = 1 := by
    rw [rayC6, Vec3.length]
    norm_num [Vec3.length_squared]
    exact hs1
  rw [hoff, hdirlen]
  have hfn : setFaceNormal rayC6 ⟨0, 0, 1⟩ = (true, ⟨0, 0, 1⟩) := by
    rw [rayC6, setFaceNormal]
    norm_num [Vec3.dot]
  rw [hfn]
  norm_num [sphereUnit]

/-- Witness for C6: the scenario evaluated at the exact rational square root
and the interval [0, 100]. -/
theorem sphere_headon_scenario_witness :
    intersect_sphere ratSqrt motionId sphereUnit rayC6 0 100
      = some ⟨⟨0, 0, 1⟩, ⟨0, 0, 1⟩, 4, true, Material.default⟩ :=
  (sphere_headon_scenario ratSqrt motionId 0 100 (by norm_num) (by norm_num)
    (by with_unfolding_all decide) (by with_unfolding_all decide)).1

/-- Workhorse for the trace return-value claims: on a hit below the depth
limit, trace returns the Fresnel blend alone on the pure-glass refracting
path, and the combined color plus the emission term on every other path. -/
theorem trace_hit_spec (env : TraceEnv) (ray : Ray) (depth : ℕ)
    (hit : HitRecord) (hq : env.query ray = some hit)
    (hd : depth < env.cfg.max_ray_depth) :
    (trace env ray depth).1 =
      (if pureGlassRefracts ray hit then fresnelCombined env ray depth hit
      else combinedColor env ray depth hit
        + hit.material.emission_color * hit.material.emission_strength) := by
  unfold trace
  rw [if_neg (not_le.mpr hd), hq]
  by_cases hA : hit.material.transparency > 0
  · by_cases hB : refractionDisc ray hit ≥ 0
    · by_cases hC : hit.material.transparency ≥ 99/100
      · have hP : pureGlassRefracts ray hit := ⟨hC, hB⟩
        rw [if_pos hP]
        have hB' := hB
        simp only [refractionDisc, etaRatio] at hB'
        simp only [fresnelCombined, fresnelReflectCol, refractCol, etaRatio,
          refractionDisc, rayEpsilon, if_pos hA, if_pos hB', if_pos hC]
      · have hP : ¬ pureGlassRefracts ray hit := fun hP => hC hP.1
        rw [if_neg hP]
        have hB' := hB
        simp only [refractionDisc, etaRatio] at hB'
        simp only [combinedColor, afterReflection, reflectionRadiance,
          localColor, mirrorRay, reflectionTint, fresnelCombined,
          fresnelReflectCol, refractCol, etaRatio, refractionDisc, rayEpsilon,
          if_pos hA, if_pos hB', if_neg hC]
    · have hP : ¬ pureGlassRefracts ray hit := fun hP => hB hP.2
      rw [if_neg hP]
      have hB' := hB
      simp only [refractionDisc, etaRatio] at hB'
      simp only [combinedColor, afterReflection, reflectionRadiance,
        localColor, mirrorRay, reflectionTint, fresnelCombined,
        fresnelReflectCol, refractCol, etaRatio, refractionDisc, rayEpsilon,
        if_pos hA, if_neg hB']
  · have hP : ¬ pureGlassRefracts ray hit :=
      fun hP => hA (lt_of_lt_of_le (by norm_num) hP.1)
    rw [if_neg hP]
    simp only [combinedColor, afterReflection, reflectionRadiance, localColor,
      mirrorRay, reflectionTint, rayEpsilon, if_neg hA]

/-- Counterexample for C3 as stated: in envC3 every radiance source (shading,
both recursive rays, background) is zero, the queried hit is pure glass
(transparency 1) with emission (1,1,1) of strength 5, and refraction is
possible (head-on hit, no total internal reflection).  If emission were added
on this hit the result would be the emission term (5,5,5); trace returns
(0,0,0): the early pure-glass return skips the emission term. -/
theorem trace_pure_glass_drops_emission :
    (trace envC3 rayC3 0).1 = ⟨0, 0, 0⟩
    ∧ envC3.query rayC3 = some hitC3
    ∧ 0 < envC3.cfg.max_ray_depth
    ∧ hitC3.material.emission_color * hitC3.material.emission_strength
        = Vec3.mk 5 5 5
    ∧ Vec3.mk 5 5 5 ≠ ⟨0, 0, 0⟩ := by
  refine ⟨by with_unfolding_all rfl, rfl, by with_unfolding_all decide,
    by with_unfolding_all decide, by with_unfolding_all decide⟩

/-- C3 (amended): on every hit below the depth limit, trace returns the
combined local/reflected/refracted color plus the emission term — except
when the material's transparency is at least 0.99 and the refraction
discriminant is nonnegative, in which case the Fresnel-weighted
reflection/refraction blend is returned with no emission added. -/
theorem trace_hit_emission_amended :
    ∀ (env : TraceEnv) (ray : Ray) (depth : ℕ) (hit : HitRecord),
    env.query ray = some hit → depth < env.cfg.max_ray_depth →
    (trace env ray depth).1 =
      (if pureGlassRefracts ray hit then fresnelCombined env ray depth hit
      else combinedColor env ray depth hit
        + hit.material.emission_color * hit.material.emission_strength) :=
  fun env ray depth hit hq hd => trace_hit_spec env ray depth hit hq hd

/-- Witness for the amended C3 at the pure-glass environment. -/
theorem trace_hit_emission_amended_witness :
    (trace envC3 rayC3 0).1 =
      (if pureGlassRefracts rayC3 hitC3 then fresnelCombined envC3 rayC3 0 hitC3
      else combinedColor envC3 rayC3 0 hitC3
        + hitC3.material.emission_color * hitC3.material.emission_strength) :=
  trace_hit_emission_amended envC3 rayC3 0 hitC3 rfl (by with_unfolding_all decide)

/-- Counterexample for C4 as stated: in envC4 every recursive trace call
returns (1,1,1); the queried hit has reflectivity 1, transparency 0,
glossiness 1 and gray diffuse color (1/2,1/2,1/2).  The claim predicts the
output equals the traced reflection radiance (1,1,1) exactly; trace returns
(1/2,1/2,1/2) because the metal branch (reflectivity > 0.5, transparency
< 0.1) tints the reflected radiance by the diffuse color. -/
theorem trace_mirror_tinted :
    (trace envC4 rayC3 0).1 = ⟨1/2, 1/2, 1/2⟩
    ∧ envC4.recur (mirrorRay envC4 rayC3 hitC4) 1 = ⟨1, 1, 1⟩
    ∧ Vec3.mk (1/2) (1/2) (1/2) ≠ ⟨1, 1, 1⟩ := by
  refine ⟨by with_unfolding_all rfl, rfl, by with_unfolding_all decide⟩

/-- Vector algebra of the full-mirror blend: weight 0 on the local term,
weight 1 on the reflection term. -/
theorem mirror_algebra (L R E : Vec3) : L * ((1:ℚ) - 1) + R * (1:ℚ) + E = R + E := by
  cases L with
  | mk a b c =>
    cases R with
    | mk d e f =>
      cases E with
      | mk g h i =>
        simp only [Vec3.smul_def, Vec3.add_def, Vec3.mk.injEq]
        norm_num

/-- C4 (amended): for a material with reflectivity 1, transparency 0 and
glossiness 1, trace on a hit below the depth limit returns the radiance of
the single ideal-mirror reflection ray tinted by the (possibly textured)
diffuse color — the metal branch applies, since reflectivity exceeds 0.5 and
transparency is below 0.1 — plus the emission term; no local-shading
contribution is blended in. -/
theorem trace_full_mirror_amended :
    ∀ (env : TraceEnv) (ray : Ray) (depth : ℕ) (hit : HitRecord),
    env.query ray = some hit → depth < env.cfg.max_ray_depth →
    hit.material.reflectivity = 1 → hit.material.transparency = 0 →
    hit.material.glossiness = 1 →
    (trace env ray depth).1 =
      env.recur (mirrorRay env ray hit) (depth + 1) * reflectionTint env hit
        + hit.material.emission_color * hit.material.emission_strength := by
  intro env ray depth hit hq hd hr ht hg
  rw [trace_hit_spec env ray depth hit hq hd]
  have hP : ¬ pureGlassRefracts ray hit := by
    intro hPP
    have h1 : hit.material.transparency ≥ 99/100 := hPP.1
    rw [ht] at h1
    norm_num at h1
  rw [if_neg hP]
  unfold combinedColor afterReflection reflectionRadiance localColor
  rw [ht, hr, hg]
  dsimp only
  rw [if_neg (by norm_num : ¬ (0 : ℚ) > 0)]
  rw [if_pos (by norm_num : (1 : ℚ) > 0)]
  rw [if_pos (Or.inr (by norm_num : (1 : ℚ) > 94/100))]
  have hmetal : (1 : ℚ) > 1/2 ∧ (0 : ℚ) < 1/10 := by norm_num
  rw [if_pos hmetal]
  exact mirror_algebra _ _ _

/-- Witness for the amended C4 at the gray-mirror environment. -/
theorem trace_full_mirror_amended_witness :
    (trace envC4 rayC3 0).1 =
      envC4.recur (mirrorRay envC4 rayC3 hitC4) (0 + 1) * reflectionTint envC4 hitC4
        + hitC4.material.emission_color * hitC4.material.emission_strength :=
  trace_full_mirror_amended envC4 rayC3 0 hitC4 rfl (by with_unfolding_all decide)
    (by with_unfolding_all decide) (by with_unfolding_all decide)
    (by with_unfolding_all decide)

/-! Lemmas for the TRS decomposition round trip (C10). -/

/-- Quaternion.to_matrix is invariant under a global sign (or any unit
scalar) on the components. -/
theorem to_matrix_sign (q : Quaternion) (e : ℚ) (he : e * e = 1) :
    (Quaternion.mk (e * q.w) (e * q.x) (e * q.y) (e * q.z)).to_matrix
      = q.to_matrix := by
  cases q with
  | mk w x y z =>
    simp only [Quaternion.to_matrix, Mat3.mk.injEq]
    refine ⟨?_, ?_, ?_, ?_, ?_, ?_, ?_, ?_, ?_⟩
    · linear_combination (-2 * (y * y + z * z)) * he
    · linear_combination (2 * (x * y - w * z)) * he
    · linear_combination (2 * (x * z + w * y)) * he
    · linear_combination (2 * (x * y + w * z)) * he
    · linear_combination (-2 * (x * x + z * z)) * he
    · linear_combination (2 * (y * z - w * x)) * he
    · linear_combination (2 * (x * z - w * y)) * he
    · linear_combination (2 * (y * z + w * x)) * he
    · linear_combination (-2 * (x * x + y * y)) * he

/-- First column of the rotation matrix of a unit quaternion has unit
squared length. -/
theorem to_matrix_col0 (q : Quaternion) (hq : q.unit) :
    q.to_matrix.a00 * q.to_matrix.a00 + q.to_matrix.a10 * q.to_matrix.a10
      + q.to_matrix.a20 * q.to_matrix.a20 = 1 := by
  unfold Quaternion.unit at hq
  cases q with
  | mk w x y z =>
    simp only [Quaternion.to_matrix]
    linear_combination (4 * (y * y + z * z)) * hq

/-- Second column of the rotation matrix of a unit quaternion has unit
squared length. -/
theorem to_matrix_col1 (q : Quaternion) (hq : q.unit) :
    q.to_matrix.a01 * q.to_matrix.a01 + q.to_matrix.a11 * q.to_matrix.a11
      + q.to_matrix.a21 * q.to_matrix.a21 = 1 := by
  unfold Quaternion.unit at hq
  cases q with
  | mk w x y z =>
    simp only [Quaternion.to_matrix]
    linear_combination (4 * (x * x + z * z)) * hq

/-- Third column of the rotation matrix of a unit quaternion has unit
squared length. -/
theorem to_matrix_col2 (q : Quaternion) (hq : q.unit) :
    q.to_matrix.a02 * q.to_matrix.a02 + q.to_matrix.a12 * q.to_matrix.a12
      + q.to_matrix.a22 * q.to_matrix.a22 = 1 := by
  unfold Quaternion.unit at hq
  cases q with
  | mk w x y z =>
    simp only [Quaternion.to_matrix]
    linear_combination (4 * (x * x + y * y)) * hq

/-- Entries of the translation * rotation * scale product: rotation columns
scaled componentwise, translation in the last column, affine bottom row. -/
theorem trsQ_eq (t : Vec3) (q : Quaternion) (s : Vec3) :
    trsQ t q s = ⟨q.to_matrix.a00 * s.x, q.to_matrix.a01 * s.y,
      q.to_matrix.a02 * s.z, t.x,
      q.to_matrix.a10 * s.x, q.to_matrix.a11 * s.y, q.to_matrix.a12 * s.z, t.y,
      q.to_matrix.a20 * s.x, q.to_matrix.a21 * s.y, q.to_matrix.a22 * s.z, t.z,
      0, 0, 0, 1⟩ := by
  simp only [trsQ, Mat4.mul, Mat4.translate, Mat4.fromQuat, Mat4.scaleM,
    Mat4.mk.injEq]
  refine ⟨by ring, by ring, by ring, by ring, by ring, by ring, by ring, by ring,
    by ring, by ring, by ring, by ring, by ring, by ring, by ring, by ring⟩

/-- extract_translation recovers the translation of a TRS matrix. -/
theorem extract_translation_trs (t : Vec3) (q : Quaternion) (s : Vec3) :
    (trsQ t q s).extract_translation = t := by
  rw [trsQ_eq, Mat4.extract_translation]

/-- extract_scale recovers the (componentwise nonnegative) scale of a TRS
matrix built from a unit quaternion, given an exact square-root oracle. -/
theorem extract_scale_trs (sq : ℚ → ℚ) (hsq : ∀ a : ℚ, 0 ≤ a → sq (a * a) = a)
    (t : Vec3) (q : Quaternion) (s : Vec3) (hq : q.unit)
    (hs : 0 ≤ s.x ∧ 0 ≤ s.y ∧ 0 ≤ s.z) :
    (trsQ t q s).extract_scale sq = s := by
  rw [trsQ_eq, Mat4.extract_scale]
  have hx : (Vec3.mk (q.to_matrix.a00 * s.x) (q.to_matrix.a10 * s.x)
      (q.to_matrix.a20 * s.x)).length_squared = s.x * s.x := by
    simp only [Vec3.length_squared]
    linear_combination (s.x * s.x) * to_matrix_col0 q hq
  have hy : (Vec3.mk (q.to_matrix.a01 * s.y) (q.to_matrix.a11 * s.y)
      (q.to_matrix.a21 * s.y)).length_squared = s.y * s.y := by
    simp only [Vec3.length_squared]
    linear_combination (s.y * s.y) * to_matrix_col1 q hq
  have hz : (Vec3.mk (q.to_matrix.a02 * s.z) (q.to_matrix.a12 * s.z)
      (q.to_matrix.a22 * s.z)).length_squared = s.z * s.z := by
    simp only [Vec3.length_squared]
    linear_combination (s.z * s.z) * to_matrix_col2 q hq
  show Vec3.mk ((Vec3.mk _ _ _).length sq) ((Vec3.mk _ _ _).length sq)
    ((Vec3.mk _ _ _).length sq) = s
  rw [Vec3.length, Vec3.length, Vec3.length, hx, hy, hz,
    hsq s.x hs.1, hsq s.y hs.2.1, hsq s.z hs.2.2]

/-- compose rebuilds the TRS matrix from any quaternion with the same
rotation matrix. -/
theorem compose_to_matrix (t s : Vec3) (q' q : Quaternion)
    (h : q'.to_matrix = q.to_matrix) :
    Mat4.compose t q' s = trsQ t q s := by
  simp only [Mat4.compose, h]
  rw [trsQ_eq]

/-- Division pattern of the non-principal Shepperd components. -/
theorem quart_div (e c m : ℚ) (he : e * e = 1) (hc : c ≠ 0) (hene : e ≠ 0) :
    4 * (c * m) / (2 * (e * c) * 2) = e * m := by
  rw [div_eq_iff
    (mul_ne_zero (mul_ne_zero two_ne_zero (mul_ne_zero hene hc)) two_ne_zero)]
  linear_combination (-4 * (c * m)) * he

/-- Shepperd's method on a TRS matrix built from a unit quaternion recovers
that quaternion up to global sign: whichever of the four branches fires, the
result is (εw, εx, εy, εz) with ε = ±1. -/
theorem extract_rotation_trs (sq : ℚ → ℚ) (hsq : ∀ a : ℚ, 0 ≤ a → sq (a * a) = a)
    (t : Vec3) (q : Quaternion) (s : Vec3) (hq : q.unit)
    (hsx : 1/10^10 ≤ s.x) (hsy : 1/10^10 ≤ s.y) (hsz : 1/10^10 ≤ s.z) :
    ∃ e : ℚ, e * e = 1 ∧
      (trsQ t q s).extract_rotation sq
        = ⟨e * q.w, e * q.x, e * q.y, e * q.z⟩ := by
  have hpos : (0:ℚ) < 1/10^10 := by norm_num
  have hs0 : 0 ≤ s.x ∧ 0 ≤ s.y ∧ 0 ≤ s.z :=
    ⟨by linarith, by linarith, by linarith⟩
  have hsxne : s.x ≠ 0 := ne_of_gt (lt_of_lt_of_le hpos hsx)
  have hsyne : s.y ≠ 0 := ne_of_gt (lt_of_lt_of_le hpos hsy)
  have hszne : s.z ≠ 0 := ne_of_gt (lt_of_lt_of_le hpos hsz)
  unfold Mat4.extract_rotation
  rw [extract_scale_trs sq hsq t q s hq hs0]
  rw [if_neg (by push_neg; exact ⟨hsx, hsy, hsz⟩)]
  rw [trsQ_eq]
  dsimp only
  rw [mul_div_cancel_right₀ q.to_matrix.a00 hsxne,
    mul_div_cancel_right₀ q.to_matrix.a01 hsyne,
    mul_div_cancel_right₀ q.to_matrix.a02 hszne,
    mul_div_cancel_right₀ q.to_matrix.a10 hsxne,
    mul_div_cancel_right₀ q.to_matrix.a11 hsyne,
    mul_div_cancel_right₀ q.to_matrix.a12 hszne,
    mul_div_cancel_right₀ q.to_matrix.a20 hsxne,
    mul_div_cancel_right₀ q.to_matrix.a21 hsyne,
    mul_div_cancel_right₀ q.to_matrix.a22 hszne]
  cases q with
  | mk w x y z =>
    unfold Quaternion.unit at hq
    dsimp only at hq
    simp only [Quaternion.to_matrix]
    by_cases h1 : 1 - 2 * (y * y + z * z) + (1 - 2 * (x * x + z * z))
        + (1 - 2 * (x * x + y * y)) > 0
    · rw [if_pos h1]
      have hwne : w ≠ 0 := by
        intro h0
        subst h0
        nlinarith [hq, h1]
      set e := (if 0 ≤ w then (1:ℚ) else -1) with hedef
      have he : e * e = 1 := by rw [hedef]; split_ifs <;> norm_num
      have hene : e ≠ 0 := by rw [hedef]; split_ifs <;> norm_num
      have hew : e * w = |w| := by
        rw [hedef]
        split_ifs with h
        · rw [one_mul, abs_of_nonneg h]
        · rw [neg_one_mul, abs_of_neg (lt_of_not_le h)]
      have harg : 1 - 2 * (y * y + z * z) + (1 - 2 * (x * x + z * z))
          + (1 - 2 * (x * x + y * y)) + 1 = 2 * |w| * (2 * |w|) := by
        have habs : |w| * |w| = w * w := abs_mul_abs_self w
        have h4 : 2 * |w| * (2 * |w|) = 4 * (w * w) := by
          rw [show 2 * |w| * (2 * |w|) = 4 * (|w| * |w|) from by ring, habs]
        rw [h4]
        linear_combination (-4) * hq
      rw [harg, hsq (2 * |w|) (by positivity), ← hew]
      refine ⟨e, he, ?_⟩
      simp only [Quaternion.mk.injEq]
      refine ⟨by ring, ?_, ?_, ?_⟩
      · rw [show 2 * (y * z + w * x) - 2 * (y * z - w * x) = 4 * (w * x)
          from by ring]
        exact quart_div e w x he hwne hene
      · rw [show 2 * (x * z + w * y) - 2 * (x * z - w * y) = 4 * (w * y)
          from by ring]
        exact quart_div e w y he hwne hene
      · rw [show 2 * (x * y + w * z) - 2 * (x * y - w * z) = 4 * (w * z)
          from by ring]
        exact quart_div e w z he hwne hene
    · rw [if_neg h1]
      by_cases h2 : 1 - 2 * (y * y + z * z) > 1 - 2 * (x * x + z * z)
          ∧ 1 - 2 * (y * y + z * z) > 1 - 2 * (x * x + y * y)
      · rw [if_pos h2]
        have hxne : x ≠ 0 := by
          intro h0
          subst h0
          nlinarith [h2.1, mul_self_nonneg y]
        set e := (if 0 ≤ x then (1:ℚ) else -1) with hedef
        have he : e * e = 1 := by rw [hedef]; split_ifs <;> norm_num
        have hene : e ≠ 0 := by rw [hedef]; split_ifs <;> norm_num
        have hex : e * x = |x| := by
          rw [hedef]
          split_ifs with h
          · rw [one_mul, abs_of_nonneg h]
          · rw [neg_one_mul, abs_of_neg (lt_of_not_le h)]
        have harg : 1 + (1 - 2 * (y * y + z * z)) - (1 - 2 * (x * x + z * z))
            - (1 - 2 * (x * x + y * y)) = 2 * |x| * (2 * |x|) := by
          have habs : |x| * |x| = x * x := abs_mul_abs_self x
          rw [show 2 * |x| * (2 * |x|) = 4 * (|x| * |x|) from by ring, habs]
          ring
        rw [harg, hsq (2 * |x|) (by positivity), ← hex]
        refine ⟨e, he, ?_⟩
        simp only [Quaternion.mk.injEq]
        refine ⟨?_, by ring, ?_, ?_⟩
        · rw [show 2 * (y * z + w * x) - 2 * (y * z - w * x) = 4 * (x * w)
            from by ring]
          exact quart_div e x w he hxne hene
        · rw [show 2 * (x * y - w * z) + 2 * (x * y + w * z) = 4 * (x * y)
            from by ring]
          exact quart_div e x y he hxne hene
        · rw [show 2 * (x * z + w * y) + 2 * (x * z - w * y) = 4 * (x * z)
            from by ring]
          exact quart_div e x z he hxne hene
      · rw [if_neg h2]
        by_cases h3 : 1 - 2 * (x * x + z * z) > 1 - 2 * (x * x + y * y)
        · rw [if_pos h3]
          have hyne : y ≠ 0 := by
            intro h0
            subst h0
            nlinarith [h3, mul_self_nonneg z]
          set e := (if 0 ≤ y then (1:ℚ) else -1) with hedef
          have he : e * e = 1 := by rw [hedef]; split_ifs <;> norm_num
          have hene : e ≠ 0 := by rw [hedef]; split_ifs <;> norm_num
          have hey : e * y = |y| := by
            rw [hedef]
            split_ifs with h
            · rw [one_mul, abs_of_nonneg h]
            · rw [neg_one_mul, abs_of_neg (lt_of_not_le h)]
          have harg : 1 + (1 - 2 * (x * x + z * z)) - (1 - 2 * (y * y + z * z))
              - (1 - 2 * (x * x + y * y)) = 2 * |y| * (2 * |y|) := by
            have habs : |y| * |y| = y * y := abs_mul_abs_self y
            rw [show 2 * |y| * (2 * |y|) = 4 * (|y| * |y|) from by ring, habs]
            ring
          rw [harg, hsq (2 * |y|) (by positivity), ← hey]
          refine ⟨e, he, ?_⟩
          simp only [Quaternion.mk.injEq]
          refine ⟨?_, ?_, by ring, ?_⟩
          · rw [show 2 * (x * z + w * y) - 2 * (x * z - w * y) = 4 * (y * w)
              from by ring]
            exact quart_div e y w he hyne hene
          · rw [show 2 * (x * y - w * z) + 2 * (x * y + w * z) = 4 * (y * x)
              from by ring]
            exact quart_div e y x he hyne hene
          · rw [show 2 * (y * z - w * x) + 2 * (y * z + w * x) = 4 * (y * z)
              from by ring]
            exact quart_div e y z he hyne hene
        · rw [if_neg h3]
          have hzne : z ≠ 0 := by
            intro h0
            subst h0
            push_neg at h1 h2 h3
            rcases h2 (by nlinarith [h3, mul_self_nonneg y]) with h2'
            nlinarith [hq, h1, h3, h2', mul_self_nonneg x, mul_self_nonneg y]
          set e := (if 0 ≤ z then (1:ℚ) else -1) with hedef
          have he : e * e = 1 := by rw [hedef]; split_ifs <;> norm_num
          have hene : e ≠ 0 := by rw [hedef]; split_ifs <;> norm_num
          have hez : e * z = |z| := by
            rw [hedef]
            split_ifs with h
            · rw [one_mul, abs_of_nonneg h]
            · rw [neg_one_mul, abs_of_neg (lt_of_not_le h)]
          have harg : 1 + (1 - 2 * (x * x + y * y)) - (1 - 2 * (y * y + z * z))
              - (1 - 2 * (x * x + z * z)) = 2 * |z| * (2 * |z|) := by
            have habs : |z| * |z| = z * z := abs_mul_abs_self z
            rw [show 2 * |z| * (2 * |z|) = 4 * (|z| * |z|) from by ring, habs]
            ring
          rw [harg, hsq (2 * |z|) (by positivity), ← hez]
          refine ⟨e, he, ?_⟩
          simp only [Quaternion.mk.injEq]
          refine ⟨?_, ?_, ?_, by ring⟩
          · rw [show 2 * (x * y + w * z) - 2 * (x * y - w * z) = 4 * (z * w)
              from by ring]
            exact quart_div e z w he hzne hene
          · rw [show 2 * (x * z + w * y) + 2 * (x * z - w * y) = 4 * (z * x)
              from by ring]
            exact quart_div e z x he hzne hene
          · rw [show 2 * (y * z - w * x) + 2 * (y * z + w * x) = 4 * (z * y)
              from by ring]
            exact quart_div e z y he hzne hene

/-- Lerp of Vec3 at parameter 0 returns the start vector. -/
theorem vlerp_zero (a b : Vec3) : a + (b - a) * (0:ℚ) = a := by
  cases a with
  | mk ax ay az =>
    cases b with
    | mk bx bY bz =>
      simp [Vec3.sub_def, Vec3.smul_def, Vec3.add_def]

/-- Lerp of Vec3 at parameter 1 returns the end vector. -/
theorem vlerp_one (a b : Vec3) : a + (b - a) * (1:ℚ) = b := by
  cases a with
  | mk ax ay az =>
    cases b with
    | mk bx bY bz =>
      simp only [Vec3.sub_def, Vec3.smul_def, Vec3.add_def, Vec3.mk.injEq]
      refine ⟨by ring, by ring, by ring⟩

/-- Scaling all four components by a sign preserves unit length. -/
theorem unit_scaled (q : Quaternion) (e : ℚ) (he : e * e = 1) (hq : q.unit) :
    (Quaternion.mk (e * q.w) (e * q.x) (e * q.y) (e * q.z)).unit := by
  have h1 : q.w * q.w + q.x * q.x + q.y * q.y + q.z * q.z = 1 := hq
  show e * q.w * (e * q.w) + e * q.x * (e * q.x) + e * q.y * (e * q.y)
      + e * q.z * (e * q.z) = 1
  linear_combination (e * e) * h1 + he

/-- Component negation preserves unit length. -/
theorem negQ_unit (q : Quaternion) (hq : q.unit) : q.negQ.unit := by
  have h1 : q.w * q.w + q.x * q.x + q.y * q.y + q.z * q.z = 1 := hq
  show -q.w * -q.w + -q.x * -q.x + -q.y * -q.y + -q.z * -q.z = 1
  linear_combination h1

/-- Quaternion::norm is the identity on unit quaternions when the square
root oracle is exact on squares. -/
theorem norm_of_unit (sq : ℚ → ℚ) (hsq : ∀ a : ℚ, 0 ≤ a → sq (a * a) = a)
    (q : Quaternion) (hq : q.unit) : q.norm sq = q := by
  have hs1 : sq 1 = 1 := by
    have h := hsq 1 (by norm_num)
    rw [mul_one] at h
    exact h
  have h1 : q.w * q.w + q.x * q.x + q.y * q.y + q.z * q.z = 1 := hq
  simp only [Quaternion.norm, Quaternion.length]
  rw [h1, hs1]
  rw [if_neg (by norm_num)]
  simp only [div_one]

/-- Cauchy-Schwarz bounds for the dot product of unit quaternions. -/
theorem unit_dot_bounds (a b : Quaternion) (ha : a.unit) (hb : b.unit) :
    -1 ≤ a.dot b ∧ a.dot b ≤ 1 := by
  have ha' : a.w * a.w + a.x * a.x + a.y * a.y + a.z * a.z = 1 := ha
  have hb' : b.w * b.w + b.x * b.x + b.y * b.y + b.z * b.z = 1 := hb
  unfold Quaternion.dot
  constructor
  · nlinarith [sq_nonneg (a.w + b.w), sq_nonneg (a.x + b.x),
      sq_nonneg (a.y + b.y), sq_nonneg (a.z + b.z)]
  · nlinarith [sq_nonneg (a.w - b.w), sq_nonneg (a.x - b.x),
      sq_nonneg (a.y - b.y), sq_nonneg (a.z - b.z)]

/-- Quaternion::slerp at t = 0 returns the (unit) start quaternion whenever
sin 0 = 0 and cos 0 = 1 hold of the trig oracles. -/
theorem slerp_zero (mo : MathOracles)
    (hsq : ∀ a : ℚ, 0 ≤ a → mo.sq (a * a) = a)
    (hcos0 : mo.cosF 0 = 1) (hsin0 : mo.sinF 0 = 0)
    (a b : Quaternion) (ha : a.unit) (hb : b.unit) :
    Quaternion.slerp mo a b 0 = a := by
  unfold Quaternion.slerp
  rw [norm_of_unit mo.sq hsq a ha, norm_of_unit mo.sq hsq b hb]
  dsimp only
  split_ifs
  all_goals simp only [mul_zero, add_zero, hsin0, hcos0, zero_div, sub_zero,
    one_mul, zero_mul]
  all_goals rw [show Quaternion.mk a.w a.x a.y a.z = a from rfl]
  all_goals exact norm_of_unit mo.sq hsq a ha

/-- Quaternion::slerp at t = 1 returns the (unit) end quaternion up to the
shorter-path sign flip, whenever cos (acos d) = d and sin (acos d) is
nonzero on [-1, 1]. -/
theorem slerp_one (mo : MathOracles)
    (hsq : ∀ a : ℚ, 0 ≤ a → mo.sq (a * a) = a)
    (hacos : ∀ d : ℚ, -1 ≤ d → d ≤ 1 → mo.cosF (mo.acosF d) = d)
    (hsinacos : ∀ d : ℚ, -1 ≤ d → d ≤ 1 → mo.sinF (mo.acosF d) ≠ 0)
    (a b : Quaternion) (ha : a.unit) (hb : b.unit) :
    Quaternion.slerp mo a b 1 = b ∨ Quaternion.slerp mo a b 1 = b.negQ := by
  obtain ⟨hdl, hdu⟩ := unit_dot_bounds a b ha hb
  have hcomp : ∀ u v : ℚ, u + (v - u) = v := fun u v => by ring
  unfold Quaternion.slerp
  rw [norm_of_unit mo.sq hsq a ha, norm_of_unit mo.sq hsq b hb]
  dsimp only
  by_cases hd : a.dot b < 0
  · simp only [if_pos hd]
    by_cases ht : -(a.dot b) > 9995/10000
    · rw [if_pos ht]
      right
      simp only [mul_one, hcomp]
      rw [show Quaternion.mk b.negQ.w b.negQ.x b.negQ.y b.negQ.z = b.negQ
        from rfl]
      exact norm_of_unit mo.sq hsq b.negQ (negQ_unit b hb)
    · rw [if_neg ht]
      right
      rw [if_neg (by push_neg; linarith), if_neg (by push_neg; linarith)]
      have hdl' : (-1:ℚ) ≤ -(a.dot b) := by linarith
      have hdu' : -(a.dot b) ≤ 1 := by linarith
      have hS := hsinacos _ hdl' hdu'
      have hC := hacos _ hdl' hdu'
      simp only [mul_one]
      rw [mul_div_assoc, div_self hS, mul_one, hC, sub_self]
      simp only [zero_mul, one_mul, zero_add]
  · simp only [if_neg hd]
    by_cases ht : a.dot b > 9995/10000
    · rw [if_pos ht]
      left
      simp only [mul_one, hcomp]
      rw [show Quaternion.mk b.w b.x b.y b.z = b from rfl]
      exact norm_of_unit mo.sq hsq b hb
    · rw [if_neg ht]
      left
      rw [if_neg (by push_neg; linarith), if_neg (by push_neg; linarith)]
      have hS := hsinacos _ hdl hdu
      have hC := hacos _ hdl hdu
      simp only [mul_one]
      rw [mul_div_assoc, div_self hS, mul_one, hC, sub_self]
      simp only [zero_mul, one_mul, zero_add]

/-- C10 (amended: the scale components must be at least the 1e-10
singularity threshold of extract_rotation, not merely strictly positive):
with a square root exact on squares and trig oracles exact at the points
slerp consults, the TRS decomposition of translation * rotation * scale
recomposes to the same matrix, Mat4::interpolate at t = 0 reproduces the
first keyframe and at t = 1 the second. -/
theorem trs_decompose_roundtrip_amended (mo : MathOracles)
    (hsq : ∀ a : ℚ, 0 ≤ a → mo.sq (a * a) = a)
    (hcos0 : mo.cosF 0 = 1) (hsin0 : mo.sinF 0 = 0)
    (hacos : ∀ d : ℚ, -1 ≤ d → d ≤ 1 → mo.cosF (mo.acosF d) = d)
    (hsinacos : ∀ d : ℚ, -1 ≤ d → d ≤ 1 → mo.sinF (mo.acosF d) ≠ 0)
    (t t' : Vec3) (q q' : Quaternion) (s s' : Vec3)
    (hq : q.unit) (hq' : q'.unit)
    (hsx : 1/10^10 ≤ s.x) (hsy : 1/10^10 ≤ s.y) (hsz : 1/10^10 ≤ s.z)
    (hsx' : 1/10^10 ≤ s'.x) (hsy' : 1/10^10 ≤ s'.y) (hsz' : 1/10^10 ≤ s'.z) :
    Mat4.compose ((trsQ t q s).extract_translation)
        ((trsQ t q s).extract_rotation mo.sq)
        ((trsQ t q s).extract_scale mo.sq) = trsQ t q s
    ∧ Mat4.interpolate mo (trsQ t q s) (trsQ t' q' s') 0 = trsQ t q s
    ∧ Mat4.interpolate mo (trsQ t q s) (trsQ t' q' s') 1 = trsQ t' q' s' := by
  have hs0 : 0 ≤ s.x ∧ 0 ≤ s.y ∧ 0 ≤ s.z :=
    ⟨le_trans (by norm_num) hsx, le_trans (by norm_num) hsy,
     le_trans (by norm_num) hsz⟩
  have hs0' : 0 ≤ s'.x ∧ 0 ≤ s'.y ∧ 0 ≤ s'.z :=
    ⟨le_trans (by norm_num) hsx', le_trans (by norm_num) hsy',
     le_trans (by norm_num) hsz'⟩
  obtain ⟨e, he, hR⟩ := extract_rotation_trs mo.sq hsq t q s hq hsx hsy hsz
  obtain ⟨e', he', hR'⟩ :=
    extract_rotation_trs mo.sq hsq t' q' s' hq' hsx' hsy' hsz'
  have hT : (trsQ t q s).extract_translation = t := extract_translation_trs t q s
  have hT' : (trsQ t' q' s').extract_translation = t' :=
    extract_translation_trs t' q' s'
  have hS : (trsQ t q s).extract_scale mo.sq = s :=
    extract_scale_trs mo.sq hsq t q s hq hs0
  have hS' : (trsQ t' q' s').extract_scale mo.sq = s' :=
    extract_scale_trs mo.sq hsq t' q' s' hq' hs0'
  have hu : (Quaternion.mk (e * q.w) (e * q.x) (e * q.y) (e * q.z)).unit :=
    unit_scaled q e he hq
  have hu' : (Quaternion.mk (e' * q'.w) (e' * q'.x) (e' * q'.y) (e' * q'.z)).unit :=
    unit_scaled q' e' he' hq'
  refine ⟨?_, ?_, ?_⟩
  · rw [hT, hS, hR]
    exact compose_to_matrix t s _ q (to_matrix_sign q e he)
  · unfold Mat4.interpolate
    dsimp only
    rw [hT, hS, hR, hT', hS', hR']
    rw [vlerp_zero t t', vlerp_zero s s']
    rw [slerp_zero mo hsq hcos0 hsin0 _ _ hu hu']
    exact compose_to_matrix t s _ q (to_matrix_sign q e he)
  · unfold Mat4.interpolate
    dsimp only
    rw [hT, hS, hR, hT', hS', hR']
    rw [vlerp_one t t', vlerp_one s s']
    rcases slerp_one mo hsq hacos hsinacos _ _ hu hu' with h | h
    · rw [h]
      exact compose_to_matrix t' s' _ q' (to_matrix_sign q' e' he')
    · rw [h]
      rw [show (Quaternion.mk (e' * q'.w) (e' * q'.x) (e' * q'.y) (e' * q'.z)).negQ
          = Quaternion.mk (-e' * q'.w) (-e' * q'.x) (-e' * q'.y) (-e' * q'.z)
        from by simp only [Quaternion.negQ, neg_mul]]
      exact compose_to_matrix t' s' _ q'
        (to_matrix_sign q' (-e') (by linear_combination he'))

/-- The witness cosine oracle inverts the witness arc cosine on the relevant
range. -/
theorem cosW_acosW (d : ℚ) (h1 : -1 ≤ d) :
    ratOracles.cosF (ratOracles.acosF d) = d := by
  show cosW (acosW d) = d
  unfold cosW acosW
  rw [if_neg (by intro h; linarith)]
  ring

/-- The witness sine oracle does not vanish on the range of the witness arc
cosine. -/
theorem sinW_acosW_ne (d : ℚ) (h1 : -1 ≤ d) :
    ratOracles.sinF (ratOracles.acosF d) ≠ 0 := by
  show sinW (acosW d) ≠ 0
  unfold sinW acosW
  rw [if_neg (by intro h; linarith)]
  norm_num

/-- Witness for C10: the round trip and both interpolation endpoints on the
concrete TRS matrices built from the identity rotation with unit scale and
from qC10 with scale (1,2,3). -/
theorem trs_decompose_roundtrip_amended_witness :
    Mat4.compose ((trsQ ⟨1, 0, 0⟩ ⟨1, 0, 0, 0⟩ ⟨1, 1, 1⟩).extract_translation)
        ((trsQ ⟨1, 0, 0⟩ ⟨1, 0, 0, 0⟩ ⟨1, 1, 1⟩).extract_rotation ratOracles.sq)
        ((trsQ ⟨1, 0, 0⟩ ⟨1, 0, 0, 0⟩ ⟨1, 1, 1⟩).extract_scale ratOracles.sq)
      = trsQ ⟨1, 0, 0⟩ ⟨1, 0, 0, 0⟩ ⟨1, 1, 1⟩
    ∧ Mat4.interpolate ratOracles (trsQ ⟨1, 0, 0⟩ ⟨1, 0, 0, 0⟩ ⟨1, 1, 1⟩)
        (trsQ ⟨0, 1, 0⟩ qC10 ⟨1, 2, 3⟩) 0 = trsQ ⟨1, 0, 0⟩ ⟨1, 0, 0, 0⟩ ⟨1, 1, 1⟩
    ∧ Mat4.interpolate ratOracles (trsQ ⟨1, 0, 0⟩ ⟨1, 0, 0, 0⟩ ⟨1, 1, 1⟩)
        (trsQ ⟨0, 1, 0⟩ qC10 ⟨1, 2, 3⟩) 1 = trsQ ⟨0, 1, 0⟩ qC10 ⟨1, 2, 3⟩ :=
  trs_decompose_roundtrip_amended ratOracles
    (fun a ha => ratSqrt_mul_self a ha)
    (by with_unfolding_all decide) (by with_unfolding_all decide)
    (fun d h1 h2 => cosW_acosW d h1) (fun d h1 h2 => sinW_acosW_ne d h1)
    ⟨1, 0, 0⟩ ⟨0, 1, 0⟩ ⟨1, 0, 0, 0⟩ qC10 ⟨1, 1, 1⟩ ⟨1, 2, 3⟩
    (by with_unfolding_all decide) (by with_unfolding_all decide)
    (by norm_num) (by norm_num) (by norm_num)
    (by norm_num) (by norm_num) (by norm_num)

/-- Second extracted scale component of MC10, computed through the exactness
lemma. -/
theorem MC10_scale_y : (MC10.extract_scale ratSqrt).y = 1/10^11 := by
  have h : (MC10.extract_scale ratSqrt).y
      = ratSqrt ((1/10^11 : ℚ) * (1/10^11)) := by
    simp only [MC10, trsQ, qC10, Mat4.mul, Mat4.translate, Mat4.fromQuat,
      Mat4.scaleM, Quaternion.to_matrix, Mat4.extract_scale, Vec3.length,
      Vec3.length_squared]
    norm_num
  rw [h, ratSqrt_mul_self _ (by norm_num)]

/-- Row-1-column-1 entry of MC10. -/
theorem MC10_m11 : MC10.m11 = -(7/25) * (1/10^11) := by
  simp only [MC10, trsQ, qC10, Mat4.mul, Mat4.translate, Mat4.fromQuat,
    Mat4.scaleM, Quaternion.to_matrix]
  norm_num

/-- C10 counterexample to the claim as stated: the TRS matrix MC10 built
from the unit rotation qC10 and the strictly positive scale 1e-11 (below
the 1e-10 singularity threshold of extract_rotation) does not survive the
decompose/recompose round trip — the rotation collapses to the identity. -/
theorem trs_roundtrip_tiny_scale_fails :
    Quaternion.unit qC10 ∧ (0:ℚ) < 1/10^11
    ∧ Mat4.compose MC10.extract_translation (MC10.extract_rotation ratSqrt)
        (MC10.extract_scale ratSqrt) ≠ MC10 := by
  refine ⟨by with_unfolding_all decide, by norm_num, ?_⟩
  intro hEq
  have h11 := congrArg Mat4.m11 hEq
  have hrot : MC10.extract_rotation ratSqrt = Quaternion.identity := by
    simp only [Mat4.extract_rotation]
    rw [if_pos (Or.inl (by rw [MC10_scale_x]; norm_num))]
  rw [hrot, MC10_m11] at h11
  simp only [Mat4.compose, Quaternion.identity, Quaternion.to_matrix] at h11
  rw [MC10_scale_y] at h11
  norm_num at h11

/-- C7 counterexample to the half-open interval: with [t_min, t_max] =
[0, 4] the head-on unit-sphere ray has quadratic roots 4 and 6; neither
lies in the half-open interval [0, 4), yet intersect_sphere reports a hit
with t = 4 — the code accepts roots equal to t_max. -/
theorem sphere_accepts_at_interval_upper_boundary :
    Option.map HitRecord.t
        (intersect_sphere ratSqrt motionId sphereUnit rayC6 0 4) = some 4
    ∧ sphereNear ratSqrt motionId sphereUnit rayC6 = 4
    ∧ sphereFar ratSqrt motionId sphereUnit rayC6 = 6
    ∧ ¬ sphereNear ratSqrt motionId sphereUnit rayC6 < 4 := by
  refine ⟨?_, by with_unfolding_all decide, by with_unfolding_all decide,
    by with_unfolding_all decide⟩
  with_unfolding_all decide

end RT
